import Mathlib

/-!
Verification development for the JRE-clipper video-processing pipeline.

Shallow embedding of the job orchestration and segment-processing code:
  - src/frontend-firebase/video-processor-CloudRun-Function/main_moviepy_pubsubhandler.py
    (process_video_segments, combine_multiple_videos, upload_to_gcs,
     process_segments_for_job, update_job_status, process_video_job)
  - src/frontend-firebase/video-processor-CloudRun-Function/main_moviepy.py
    (processVideoJob accept path: per-segment videoId validation and
     first-appearance deduplication of video ids)
  - src/video-processor-CloudRun-Function/main_moviepy.py
    (check_existing_videos_in_gcs)

Modelling conventions:
  - Python floats (segment times, video durations) are modelled as rationals;
    the embedded code only compares and takes minima of these values, never
    performs arithmetic whose float rounding could be observed.
  - Python `int(x)` on the non-negative progress floats is modelled as Nat
    floor division applied to the rational expression written in the source.
  - External effects (the ffmpeg engine, GCS, the FUSE mount, the per-video
    timeout flag) are oracles: an `Oracle` record says, for each call the
    code can make, what the environment answers.  The code's own control
    flow is translated statement by statement.
  - Firestore job updates are modelled as the list of patches the code
    emits, in emission order; a document is a partial map from field names.
-/

set_option maxRecDepth 40000

/-! ## Kernel-friendly string helpers

`String.startsWith`, `String.toLower` and friends do not reduce in the
kernel, so the few string operations the source performs are re-implemented
over `String.data`. -/

/-- Take the first `n` characters of a character list. -/
def charsTake : Nat → List Char → List Char
  | 0, _ => []
  | _, [] => []
  | n+1, c :: cs => c :: charsTake n cs

/-- Model of Python string slicing `s[:n]`. -/
def strTake (s : String) (n : Nat) : String := ⟨charsTake n s.data⟩

/-- Does `needle` occur as a contiguous block of `hay`? -/
def charsContains (needle : List Char) : List Char → Bool
  | [] => needle.isPrefixOf []
  | c :: t => needle.isPrefixOf (c :: t) || charsContains needle t

/-- Model of Python `needle in hay` on strings. -/
def strContains (hay needle : String) : Bool := charsContains needle.data hay.data

/-- ASCII lower-casing of one character. -/
def lowerChar (c : Char) : Char :=
  if 'A' ≤ c ∧ c ≤ 'Z' then Char.ofNat (c.toNat + 32) else c

/-- Model of Python `s.lower()` (the source only lowercases ASCII messages). -/
def lowerString (s : String) : String := ⟨s.data.map lowerChar⟩

/-- Model of Python `s.startswith(pre)` / anchored regex prefix. -/
def strStartsWith (pre s : String) : Bool := pre.data.isPrefixOf s.data

/-- Model of an anchored regex suffix match. -/
def strEndsWith (suf s : String) : Bool := suf.data.isSuffixOf s.data

/-- The single-quote character, used inside source-derived message strings. -/
def sqt : String := ⟨[Char.ofNat 39]⟩

/-! ## Data model: segments as they arrive in a job message -/

/-- A JSON field value as the segment-validation code distinguishes them:
a numeric value (Python `float()` succeeds), a value `float()` rejects with
`ValueError`/`TypeError` (for example a non-numeric string), or an absent
key (`dict.get` returns the supplied default). -/
inductive JVal where
  | num (q : ℚ)
  | nonNumeric
  | missing
deriving DecidableEq, Repr

/-- One entry of the request's `segments` array.  `videoId = none` models a
missing or `null` key (Python `segment.get("videoId")` returning `None`). -/
structure Segment where
  videoId : Option String
  startTimeSeconds : JVal
  endTimeSeconds : JVal
deriving DecidableEq, Repr

/-- Python truthiness test `not video_id` on the result of
`segment.get("videoId")`: true for `None` and for the empty string. -/
def falsyId : Option String → Bool
  | none => true
  | some s => s = ""

/-- Model of `float(segment.get(key, 0))`: a missing key defaults to `0`,
a numeric value converts, a non-numeric value raises (modelled as `none`). -/
def getTime : JVal → Option ℚ
  | .num q => some q
  | .nonNumeric => none
  | .missing => some 0

/-- A segment that survived the first validation pass, with converted times
(source `valid_segments` entries; the stored `duration` field is
`stop - start` and is kept implicit). -/
structure VSeg where
  start : ℚ
  stop : ℚ
deriving DecidableEq, Repr

/-- A time range of the source video that one extracted sub-clip file
contains (`ss = start`, extraction stops at `stop`). -/
structure Range where
  start : ℚ
  stop : ℚ
deriving DecidableEq, Repr

/-- First validation pass of `process_video_segments` (pubsub handler,
lines 129-155): convert both times with `float(...)`, defaulting missing
keys to `0`; keep the segment iff `start >= 0 and end > start`; a
conversion error skips the segment. -/
def conv1 (s : Segment) : Option VSeg :=
  match getTime s.startTimeSeconds, getTime s.endTimeSeconds with
  | some st, some en => if 0 ≤ st ∧ st < en then some ⟨st, en⟩ else none
  | _, _ => none

/-- Source `valid_segments`: the first-pass survivors, in submission order. -/
def valid_segments (segs : List Segment) : List VSeg := segs.filterMap conv1

/-! ## Job Store: `update_job_status` and Firestore's partial update -/

/-- A Firestore field value, as far as the job record uses them. -/
inductive FVal where
  | str (s : String)
  | nat (n : Nat)
  | strList (l : List String)
  | time (t : Nat)
deriving DecidableEq, Repr

/-- The `update_data` dict built by `update_job_status` (pubsub handler,
lines 969-980): `status` and a fresh `updatedAt` always; `progress` when it
is not `None`; `progressMessage` / `error` / `finalVideoUrl` /
`suggestions` when truthy (non-empty). -/
def update_data (status : String) (now : Nat) (progress : Option Nat)
    (message error videoUrl : Option String)
    (suggestions : Option (List String)) : List (String × FVal) :=
  [("status", .str status), ("updatedAt", .time now)]
  ++ (match progress with | some p => [("progress", .nat p)] | none => [])
  ++ (match message with
      | some m => if m = "" then [] else [("progressMessage", .str m)]
      | none => [])
  ++ (match error with
      | some e => if e = "" then [] else [("error", .str e)]
      | none => [])
  ++ (match videoUrl with
      | some u => if u = "" then [] else [("finalVideoUrl", .str u)]
      | none => [])
  ++ (match suggestions with
      | some l => if l = [] then [] else [("suggestions", .strList l)]
      | none => [])

/-- The `progress` entry of `update_data`, as its own definition. -/
def progressChunk (progress : Option Nat) : List (String × FVal) :=
  match progress with
  | some p => [("progress", .nat p)]
  | none => []

/-- A truthiness-guarded string entry of `update_data`. -/
def strChunk (key : String) (v : Option String) : List (String × FVal) :=
  match v with
  | some m => if m = "" then [] else [(key, .str m)]
  | none => []

/-- The `suggestions` entry of `update_data`. -/
def suggChunk (suggestions : Option (List String)) : List (String × FVal) :=
  match suggestions with
  | some l => if l = [] then [] else [("suggestions", .strList l)]
  | none => []

/-- A Firestore document: a partial map from field names to values. -/
def JobDoc : Type := String → Option FVal

/-- Firestore `DocumentReference.update(update_data)` on top-level fields:
each supplied field is overwritten, every other field kept (no delete
sentinels are used by this code base). -/
def applyUpdate (doc : JobDoc) (upd : List (String × FVal)) : JobDoc :=
  fun k => match upd.lookup k with
    | some v => some v
    | none => doc k

/-! ## One emitted job-status update

Each call the pipeline makes to `update_job_status` is recorded as a
`Patch` holding the call's arguments (all messages in this pipeline are
non-empty, so argument presence coincides with field truthiness). -/

/-- Arguments of one `update_job_status` call made by the pipeline. -/
structure Patch where
  status : String
  progress : Option Nat := none
  message : Option String := none
  error : Option String := none
  videoUrl : Option String := none
  suggestions : Option (List String) := none
deriving DecidableEq, Repr

/-- A plain progress update: `update_job_status(job_id, "Processing", p, msg)`. -/
def procPatch (p : Nat) (msg : String) : Patch :=
  { status := "Processing", progress := some p, message := some msg }

/-- The `suggestions` list chosen by the `if/elif` chain in
`process_video_segments`'s failure handler (pubsub handler, lines 434-455),
keyed on substrings of the lower-cased error message. -/
def suggestionsFor (msg : String) : List String :=
  let m := lowerString msg
  if strContains m "ffmpeg" then
    ["ffmpeg-python processing failed - video encoding issue",
     "Try selecting shorter segments or check video format compatibility"]
  else if strContains m "probe" then
    ["ffmpeg-python probe failed - video format issue",
     "Check that the video file is not corrupted"]
  else if strContains m "invalid" then
    ["Invalid segment timestamps detected"]
  else if strContains m "permission" then
    ["File permission error - check container permissions"]
  else if strContains m "not found" then
    ["Input video file not found"]
  else if strContains m "duration" then
    ["Segment times exceed video duration - check timestamps"]
  else if strContains m "memory" then
    ["Memory issue - try processing fewer or shorter segments"]
  else
    ["Video processing encountered an unexpected error"]

/-- The `Failed` update emitted by `process_video_segments` before it
re-raises (pubsub handler, line 457). -/
def failPatch (msg : String) : Patch :=
  { status := "Failed", error := some msg, suggestions := some (suggestionsFor msg) }

/-! ## The environment oracle -/

/-- Answers of the external world to each call the pipeline can make.
`timeoutAt1` / `timeoutAt2` are the value of the per-video 60-minute
`threading.Event` flag at the two points where the code reads it (before
resolving the file, and after resolving it / before extraction);
`timeoutAt3` is the flag's value when extraction finishes — the code never
reads it, it exists so that "the timer expired while extraction was in
flight" is an expressible scenario. -/
structure Oracle where
  fileFound : String → Bool
  duration : String → ℚ
  extractOk : String → Nat → Bool
  concat1Ok : String → Bool
  concat2Ok : String → Bool
  combineCopyOk : Bool
  combineReencodeOk : Bool
  uploadOk : Bool
  signedUrl : String
  timeoutAt1 : String → Bool
  timeoutAt2 : String → Bool
  timeoutAt3 : String → Bool

/-- One invocation of the external ffmpeg engine, as recorded in a trace:
extraction of one numbered segment, the first concatenation attempt for an
asset (stream copy for several files, plain remux for a single file), the
fallback re-encode retry of that concatenation, and the two corresponding
job-level combination attempts. -/
inductive EngineCall where
  | extractSeg (vid : String) (i : Nat)
  | concatFirst (vid : String)
  | concatRetry (vid : String)
  | combineFirst
  | combineRetry
deriving DecidableEq, Repr

/-- Index-tagging of a list, starting at `i` (Python `enumerate`). -/
def withIdx (i : Nat) : List α → List (Nat × α)
  | [] => []
  | a :: as => (i, a) :: withIdx (i+1) as

/-! ## `process_video_segments` (pubsub handler, lines 114-458) -/

/-- Progress written after segment `i+1` of `n` succeeds:
`int(60 + (i + 1) / n * 15)` (line 293). -/
def segProgress (i n : Nat) : Nat := 60 + ((i + 1) * 15) / n

/-- The message of that update. -/
def segMsg (k n : Nat) : String :=
  "Processed segment " ++ toString k ++ "/" ++ toString n

/-- Body of the per-segment loop (lines 220-310) for the `i`-th entry of
`valid_segments`: skip when `start_time >= video_duration`; clamp
`end_time` to the video duration when it exceeds it; invoke the engine;
on success record the sub-clip file and a progress update; on an engine
error skip the segment and continue (no retry).
Returns (updates, engine calls, produced file). -/
def segmentStep (o : Oracle) (vid : String) (dur : ℚ) (n : Nat)
    (iv : Nat × VSeg) : List Patch × List EngineCall × Option Range :=
  let i := iv.1
  let s := iv.2
  if dur ≤ s.start then ([], [], none)
  else
    let endT := min s.stop dur
    if o.extractOk vid i then
      ([procPatch (segProgress i n) (segMsg (i+1) n)],
       [.extractSeg vid i], some ⟨s.start, endT⟩)
    else
      ([], [.extractSeg vid i], none)

/-- The per-segment loop, run over the enumerated first-pass survivors. -/
def pvsSteps (o : Oracle) (vid : String) (segs : List Segment) :
    List (List Patch × List EngineCall × Option Range) :=
  (withIdx 0 (valid_segments segs)).map
    (segmentStep o vid (o.duration vid) (valid_segments segs).length)

/-- The progress updates the loop wrote, in order. -/
def segUpdatesOf (o : Oracle) (vid : String) (segs : List Segment) : List Patch :=
  ((pvsSteps o vid segs).map (fun st => st.1)).flatten

/-- The engine calls the loop made, in order. -/
def segCallsOf (o : Oracle) (vid : String) (segs : List Segment) : List EngineCall :=
  ((pvsSteps o vid segs).map (fun st => st.2.1)).flatten

/-- The `segment_files` list after the loop: sub-clip ranges in loop
(submission) order. -/
def extractedFiles (o : Oracle) (vid : String) (segs : List Segment) : List Range :=
  (pvsSteps o vid segs).filterMap (fun st => st.2.2)

/-- The `Processing 60` update written before the loop (line 210). -/
def p60Of (segs : List Segment) : Patch :=
  procPatch 60 ("Processing " ++ toString (valid_segments segs).length ++ " video segments...")

/-- The `Processing 75` update written before concatenation (line 320). -/
def p75Patch : Patch :=
  procPatch 75 "Combining segments and encoding final video..."

/-- Error text of the concatenation failure as it propagates out of
`process_video_segments` (line 394 wraps the ffmpeg error, line 414 wraps
again; the ffmpeg engine's own stderr text is elided). -/
def concatFailLocal : String := "Video encoding failed: ffmpeg-python error: "

/-- Outcome of one `process_video_segments` call: the updates it wrote, the
engine calls it made, and either the intermediate clip (its ordered
sub-clip ranges) or the message of the exception it re-raised. -/
structure SegRun where
  updates : List Patch
  calls : List EngineCall
  result : Except String (List Range)
deriving Repr

/-- Is an `Except` the error case? -/
def isErr : Except ε α → Bool
  | .error _ => true
  | .ok _ => false

/-- Model of `process_video_segments(video_path, segments, temp_dir, job_id)`.
Control flow of the source, in order: first-pass validation (raise when
nothing survives), probe (assumed to succeed for a file the FUSE mount
resolved), the `Processing 60` update, the per-segment loop, raise when no
segment file was produced, the `Processing 75` update, then concatenation
with one re-encode retry.  Every raise is preceded by the `Failed` update
of the function's own exception handler, and the propagated exception text
is prefixed with `Failed to process video segments: ` (line 458). -/
def process_video_segments (o : Oracle) (vid : String) (segs : List Segment) : SegRun :=
  if valid_segments segs = [] then
    { updates := [failPatch "No valid segments to process"],
      calls := [],
      result := .error "Failed to process video segments: No valid segments to process" }
  else if extractedFiles o vid segs = [] then
    { updates := p60Of segs :: segUpdatesOf o vid segs
        ++ [failPatch "No valid video segments could be created"],
      calls := segCallsOf o vid segs,
      result := .error
        "Failed to process video segments: No valid video segments could be created" }
  else if o.concat1Ok vid then
    { updates := p60Of segs :: segUpdatesOf o vid segs ++ [p75Patch],
      calls := segCallsOf o vid segs ++ [.concatFirst vid],
      result := .ok (extractedFiles o vid segs) }
  else if o.concat2Ok vid then
    { updates := p60Of segs :: segUpdatesOf o vid segs ++ [p75Patch],
      calls := segCallsOf o vid segs ++ [.concatFirst vid, .concatRetry vid],
      result := .ok (extractedFiles o vid segs) }
  else
    { updates := p60Of segs :: segUpdatesOf o vid segs
        ++ [p75Patch, failPatch concatFailLocal],
      calls := segCallsOf o vid segs ++ [.concatFirst vid, .concatRetry vid],
      result := .error ("Failed to process video segments: " ++ concatFailLocal) }

/-! ## `process_segments_for_job` (pubsub handler, lines 710-951) -/

/-- Why an asset ended up in `failed_videos`.  The reason tag is
instrumentation naming the code path that appended the entry; the `entry`
string is the exact list element the source builds. -/
inductive FailReason where
  | timeout
  | notFound
  | procError
deriving DecidableEq, Repr

/-- Result of one iteration of the per-video loop: an intermediate clip, or
a `failed_videos` entry. -/
inductive AssetResult where
  | clip (ranges : List Range)
  | failed (reason : FailReason) (entry : String)
deriving DecidableEq, Repr

/-- Everything one iteration of the per-video loop produced. -/
structure AssetOutcome where
  updates : List Patch
  calls : List EngineCall
  result : AssetResult
deriving Repr

/-- Progress shown while video number `k` of `n` is handled:
`int(55 + (processed_videos / total_videos_to_process) * 25)` (line 768). -/
def ppVal (k n : Nat) : Nat := 55 + (25 * k) / n

/-- The update opening iteration `k` for video `vid` with `m` segments
(line 775). -/
def loopHeadMsg (k n : Nat) (vid : String) (m : Nat) : String :=
  "Processing video " ++ toString k ++ "/" ++ toString n ++ ": " ++ vid
    ++ " (" ++ toString m ++ " segments)"

/-- Warning message written when a video timed out (line 854). -/
def timeoutWarnMsg (vid : String) : String :=
  "Warning: Video " ++ vid ++ " timed out, continuing with remaining videos..."

/-- Warning message written when a video failed for any other reason
(line 867). -/
def failWarnMsg (vid : String) : String :=
  "Warning: Failed to process video " ++ vid ++ ", continuing with remaining videos..."

/-- The `FileNotFoundError` text of `find_video_file_fuse` (line 697); its
tail, which lists the glob patterns tried, is elided — the pipeline only
ever looks at the first 50 characters of this string, and the retained
prefix `Video file with ID '<vid>' not found in mounted bucket.` is already
at least 50 characters long for every `vid`. -/
def fuseNotFoundMsg (vid : String) : String :=
  "Video file with ID " ++ sqt ++ vid ++ sqt ++ " not found in mounted bucket. Tried patterns"

/-- One iteration of the per-video loop (lines 763-869), for video number
`k` of `n`: emit the head update; check the timeout flag; resolve the file
on the FUSE mount; check the flag again; run `process_video_segments`;
translate each failure into a `failed_videos` entry plus a warning update
and continue.  The 60-minute `threading.Timer` is started before the inner
`try` and cancelled in its `finally`; its only observable effect is the
flag read at the two checkpoints. -/
def assetIteration (o : Oracle) (n k : Nat) (vid : String)
    (vsegs : List Segment) : AssetOutcome :=
  let pp := ppVal k n
  let head := procPatch pp (loopHeadMsg k n vid vsegs.length)
  if o.timeoutAt1 vid then
    { updates := [head, procPatch pp (timeoutWarnMsg vid)],
      calls := [],
      result := .failed .timeout (vid ++ " (timeout)") }
  else if o.fileFound vid then
    if o.timeoutAt2 vid then
      { updates := [head, procPatch pp (timeoutWarnMsg vid)],
        calls := [],
        result := .failed .timeout (vid ++ " (timeout)") }
    else
      let run := process_video_segments o vid vsegs
      match run.result with
      | .ok files =>
        { updates := head :: run.updates,
          calls := run.calls,
          result := .clip files }
      | .error e =>
        { updates := head :: run.updates ++ [procPatch pp (failWarnMsg vid)],
          calls := run.calls,
          result := .failed .procError (vid ++ " (" ++ strTake e 50 ++ ")") }
  else
    { updates := [head, procPatch pp (failWarnMsg vid)],
      calls := [],
      result := .failed .notFound (vid ++ " (" ++ strTake (fuseNotFoundMsg vid) 50 ++ ")") }

/-- Grouping `segments_by_video` (lines 745-751): a Python dict keeps keys
in insertion order, so the key list is the first-appearance order of the
truthy `videoId`s. -/
def dedupIds (segs : List Segment) : List String :=
  segs.foldl (fun acc s =>
    match s.videoId with
    | some v => if v = "" ∨ v ∈ acc then acc else acc ++ [v]
    | none => acc) []

/-- The segments grouped under one key, in submission order. -/
def segsFor (segs : List Segment) (vid : String) : List Segment :=
  segs.filter (fun s => s.videoId = some vid)

/-- The aggregated error text of the zero-success path (line 877). -/
def aggFailMsg (failed : List String) : String :=
  "No video segments were successfully processed. Failed videos: "
    ++ String.intercalate ", " failed

/-- Completion message, noting the failure count on partial success
(lines 919-921). -/
def completionMessage (failedCount successCount : Nat) : String :=
  "Video processing complete!"
    ++ (if failedCount = 0 then ""
        else " Note: " ++ toString failedCount ++ " videos failed but "
          ++ toString successCount ++ " were processed successfully.")

/-- The `Uploading 85` update of `upload_to_gcs` (line 594). -/
def uploadingPatch : Patch :=
  { status := "Uploading", progress := some 85,
    message := some "Uploading final video to cloud storage..." }

/-- The `Complete 100` update of `upload_to_gcs` (line 626). -/
def uploadDonePatch (url : String) : Patch :=
  { status := "Complete", progress := some 100,
    message := some "Video ready for download!", videoUrl := some url }

/-- The `Failed` update of `upload_to_gcs` (line 639); the wrapped storage
exception text is elided. -/
def uploadFailPatch : Patch :=
  { status := "Failed", error := some "Failed to upload video: ",
    suggestions := some ["Upload to cloud storage failed",
      "Please try generating the video again"] }

/-- The completion update of `process_segments_for_job` (line 924). -/
def completionPatch (failedCount successCount : Nat) (url : String) : Patch :=
  { status := "Complete", progress := some 100,
    message := some (completionMessage failedCount successCount),
    videoUrl := some url }

/-- Everything one consumed work message produced. -/
structure JobRun where
  updates : List Patch
  calls : List EngineCall
  clips : List (String × List Range)
  failed : List (FailReason × String)
  combined : Option (List Range)
  result : Except String String
deriving Repr

/-- The per-video loop over the grouped keys, one `AssetOutcome` each. -/
def jobOutcomes (o : Oracle) (segs : List Segment) : List (String × AssetOutcome) :=
  let keys := dedupIds segs
  (withIdx 1 keys).map (fun kv => (kv.2, assetIteration o keys.length kv.1 kv.2 (segsFor segs kv.2)))

/-- Source `all_processed_segments`, tagged with the video id each clip
came from: the clips accumulated by the loop, in loop order. -/
def clipsOf (o : Oracle) (segs : List Segment) : List (String × List Range) :=
  (jobOutcomes o segs).filterMap (fun x =>
    match x.2.result with | .clip c => some (x.1, c) | .failed _ _ => none)

/-- Source `failed_videos`: the failure entries accumulated by the loop,
in loop order, tagged with the code path that appended them. -/
def failedOf (o : Oracle) (segs : List Segment) : List (FailReason × String) :=
  (jobOutcomes o segs).filterMap (fun x =>
    match x.2.result with | .failed r e => some (r, e) | .clip _ => none)

/-- All updates the per-video loop wrote, in order. -/
def loopUpdatesOf (o : Oracle) (segs : List Segment) : List Patch :=
  ((jobOutcomes o segs).map (fun x => x.2.updates)).flatten

/-- All engine calls the per-video loop made, in order. -/
def loopCallsOf (o : Oracle) (segs : List Segment) : List EngineCall :=
  ((jobOutcomes o segs).map (fun x => x.2.calls)).flatten

/-- The `Processing 55` update written before the loop (line 737). -/
def preAnalyzePatch (videoIds : List String) (segs : List Segment) : Patch :=
  procPatch 55 ("Analyzing " ++ toString segs.length ++ " segments across "
    ++ toString videoIds.length ++ " videos...")

/-- The `Processing 80` update written after the loop (lines 885-899):
the partial-success wording when some videos failed, the full-success
wording otherwise. -/
def postLoopPatch (o : Oracle) (segs : List Segment) : Patch :=
  if failedOf o segs = [] then
    procPatch 80 ("Successfully processed all " ++ toString (clipsOf o segs).length
      ++ " videos. Combining results...")
  else
    procPatch 80 ("Processed " ++ toString (clipsOf o segs).length ++ "/"
      ++ toString (dedupIds segs).length
      ++ " videos successfully. Combining results...")

/-- Updates of `combine_multiple_videos` (only called for more than one
clip; it opens with its own `Processing 80` update, line 471). -/
def combineUpdates (o : Oracle) (segs : List Segment) : List Patch :=
  if (clipsOf o segs).length ≤ 1 then []
  else [procPatch 80 "Combining multiple video segments..."]

/-- Engine calls of the job-level combination: the copy attempt, and the
re-encode retry exactly when the copy attempt failed. -/
def combineCalls (o : Oracle) (segs : List Segment) : List EngineCall :=
  if (clipsOf o segs).length ≤ 1 then []
  else if o.combineCopyOk then [.combineFirst]
  else [.combineFirst, .combineRetry]

/-- Did the combination step leave a combined file (single clip passed
through, or one of the two concatenation attempts succeeded)? -/
def combineOk (o : Oracle) (segs : List Segment) : Bool :=
  decide ((clipsOf o segs).length ≤ 1) || o.combineCopyOk || o.combineReencodeOk

/-- Content of the combined artifact: the intermediate clips' ranges,
concatenated in loop (first-appearance) order. -/
def combinedContentOf (o : Oracle) (segs : List Segment) : List Range :=
  ((clipsOf o segs).map (fun c => c.2)).flatten

/-- Model of `process_segments_for_job(job_id, job_data)`: validate the job
data, emit the `Processing 55` update, run the per-video loop, raise with
the aggregated message when nothing succeeded, otherwise emit the
80-percent update, combine several clips with one re-encode retry
(`combine_multiple_videos`, which first emits its own 80-percent update),
upload (`upload_to_gcs`: `Uploading 85`, then `Complete 100` with the
signed URL), and emit the final completion update.  The combined artifact
is the concatenation of the intermediate clips in loop order. -/
def process_segments_for_job (o : Oracle) (videoIds : List String)
    (segs : List Segment) : JobRun :=
  if videoIds = [] ∨ segs = [] then
    { updates := [], calls := [], clips := [], failed := [], combined := none,
      result := .error "Job missing video IDs or segments data" }
  else if clipsOf o segs = [] then
    { updates := preAnalyzePatch videoIds segs :: loopUpdatesOf o segs,
      calls := loopCallsOf o segs, clips := clipsOf o segs,
      failed := failedOf o segs, combined := none,
      result := .error (aggFailMsg ((failedOf o segs).map (fun f => f.2))) }
  else if combineOk o segs then
    if o.uploadOk then
      { updates := preAnalyzePatch videoIds segs :: loopUpdatesOf o segs
          ++ [postLoopPatch o segs] ++ combineUpdates o segs
          ++ [uploadingPatch, uploadDonePatch o.signedUrl,
              completionPatch (failedOf o segs).length (clipsOf o segs).length o.signedUrl],
        calls := loopCallsOf o segs ++ combineCalls o segs,
        clips := clipsOf o segs, failed := failedOf o segs,
        combined := some (combinedContentOf o segs),
        result := .ok o.signedUrl }
    else
      { updates := preAnalyzePatch videoIds segs :: loopUpdatesOf o segs
          ++ [postLoopPatch o segs] ++ combineUpdates o segs
          ++ [uploadingPatch, uploadFailPatch],
        calls := loopCallsOf o segs ++ combineCalls o segs,
        clips := clipsOf o segs, failed := failedOf o segs,
        combined := some (combinedContentOf o segs),
        result := .error "Failed to upload video: " }
  else
    { updates := preAnalyzePatch videoIds segs :: loopUpdatesOf o segs
        ++ [postLoopPatch o segs] ++ combineUpdates o segs,
      calls := loopCallsOf o segs ++ combineCalls o segs,
      clips := clipsOf o segs, failed := failedOf o segs, combined := none,
      result := .error "ffmpeg-python error: " }

/-- The fixed suggestions the Pub/Sub entry point stores on failure
(lines 1099-1103). -/
def pubsubFailSuggestions : List String :=
  ["Video processing failed in Pub/Sub handler",
   "Check logs for detailed error information",
   "Try submitting the job again"]

/-- The entry point's own final `Complete 100` update (line 1068). -/
def pubsubDonePatch (url : String) : Patch :=
  { status := "Complete", progress := some 100,
    message := some "Video processing completed successfully",
    videoUrl := some url }

/-- The entry point's `Failed` update (line 1095). -/
def pubsubFailPatch (e : String) : Patch :=
  { status := "Failed", error := some e,
    suggestions := some pubsubFailSuggestions }

/-- Model of the Pub/Sub entry point `process_video_job` (lines 991-1106):
the `Processing 50` update, then `process_segments_for_job`; on success a
final `Complete 100` update, on any exception a `Failed` update carrying
the exception text and the fixed suggestions. -/
def process_video_job (o : Oracle) (videoIds : List String)
    (segs : List Segment) : JobRun :=
  let start := procPatch 50 "Starting video segment processing via Pub/Sub..."
  let r := process_segments_for_job o videoIds segs
  match r.result with
  | .ok url => { r with updates := start :: r.updates ++ [pubsubDonePatch url] }
  | .error e => { r with updates := start :: r.updates ++ [pubsubFailPatch e] }

/-! ## The synchronous accept path (`processVideoJob`, frontend
`main_moviepy.py`, lines 936-957) -/

/-- The id-collection loop: reject with HTTP 400 as soon as one segment has
a falsy `videoId`; otherwise accumulate the unique ids in first-appearance
order (`unique_video_ids` plus the `seen_video_ids` set). -/
def collectIds : List Segment → List String → Except String (List String)
  | [], acc => .ok acc
  | s :: rest, acc =>
    if falsyId s.videoId then .error "videoId is required in all segments"
    else
      match s.videoId with
      | some v => collectIds rest (if v ∈ acc then acc else acc ++ [v])
      | none => .error "videoId is required in all segments"

/-- The accept path's segment validation: an empty (or missing) segments
array is rejected up front (line 915), then the id loop runs, then the
collected list is checked for emptiness (line 952). -/
def processVideoJobAccept (segs : List Segment) : Except String (List String) :=
  if segs = [] then
    .error "The function must be called with a segments array containing videoId, startTimeSeconds, and endTimeSeconds."
  else
    match collectIds segs [] with
    | .error e => .error e
    | .ok ids => if ids = [] then .error "No valid video IDs found in segments" else .ok ids

/-! ## The availability check (`check_existing_videos_in_gcs`,
`src/video-processor-CloudRun-Function/main_moviepy.py`, lines 738-797) -/

/-- Anchored match of `^<vid>_.*\.mp4\.mp4$` (the `video_id` is
`re.escape`d, so it is matched literally; `.*` is modelled as an arbitrary
character block — object names contain no newline). -/
def gcsPat1 (vid name : String) : Bool :=
  strStartsWith (vid ++ "_") name && strEndsWith ".mp4.mp4" name
    && decide (vid.length + 9 ≤ name.length)

/-- Anchored match of `^<vid>_.*\.mp4$`. -/
def gcsPat2 (vid name : String) : Bool :=
  strStartsWith (vid ++ "_") name && strEndsWith ".mp4" name
    && decide (vid.length + 5 ≤ name.length)

/-- Anchored match of `^<vid>\.mp4$`. -/
def gcsPat3 (vid name : String) : Bool :=
  name = vid ++ ".mp4"

/-- The inner pattern loop (lines 770-774): does this object key match any
of the three accepted patterns for this video id? -/
def matchesAnyPattern (vid name : String) : Bool :=
  gcsPat1 vid name || gcsPat2 vid name || gcsPat3 vid name

/-- The blob loop (lines 767-778): walk the listing once, in listing order,
and keep the first object key that matches any pattern. -/
def findExistingVideo (vid : String) (blobs : List String) : Option String :=
  blobs.find? (matchesAnyPattern vid)

/-- Model of `check_existing_videos_in_gcs(video_ids)`: `list_blobs` is
called once (the returned counter is the number of listing calls made),
then every video id is resolved against that one listing. -/
def check_existing_videos_in_gcs (videoIds blobs : List String) :
    List (String × Option String) × Nat :=
  let listingCalls := 1
  (videoIds.map (fun vid => (vid, findExistingVideo vid blobs)), listingCalls)

/-- What the specification describes instead (spec section 4.1: "taking the
first pattern that yields a match", with pattern priority deciding between
multiple naming variants): try the whole listing against pattern 1, then
against pattern 2, then against pattern 3. -/
def patternPriorityLookup (vid : String) (blobs : List String) : Option String :=
  match blobs.find? (gcsPat1 vid) with
  | some b => some b
  | none =>
    match blobs.find? (gcsPat2 vid) with
    | some b => some b
    | none => blobs.find? (gcsPat3 vid)

/-! ## Derived observables used by the claims -/

/-- The progress values carried by a run's updates, in emission order. -/
def progressValues (l : List Patch) : List Nat := l.filterMap (fun u => u.progress)

/-- Is a status terminal? -/
def isTerminalStatus (s : String) : Bool := s = "Complete" || s = "Failed"

/-- Progress values of the non-terminal updates, in emission order. -/
def nonTerminalProgress (l : List Patch) : List Nat :=
  progressValues (l.filter (fun u => !isTerminalStatus u.status))

/-- Is a number list non-decreasing from each entry to the next? -/
def isNonDecreasing : List Nat → Bool
  | [] => true
  | [_] => true
  | a :: b :: r => decide (a ≤ b) && isNonDecreasing (b :: r)

/-- Status of the last update written, if any. -/
def lastStatus (l : List Patch) : Option String := (l.getLast?).map (fun u => u.status)

/-- The second validation pass and clamping, declaratively: the sub-clip
ranges extraction produces when the engine never fails, in submission
order — first-pass survivors, minus those with `start ≥ duration`, with
`end` clamped to the duration. -/
def clampedSurvivors (segs : List Segment) (dur : ℚ) : List Range :=
  ((valid_segments segs).filter (fun s => decide (s.start < dur))).map
    (fun s => ⟨s.start, min s.stop dur⟩)

/-- Did the per-video-loop iteration produce an intermediate clip when
handed these segments?  (The iteration's result does not depend on its
position counter, only the progress values of its updates do.) -/
def assetSucceedsOn (o : Oracle) (vid : String) (vsegs : List Segment) : Bool :=
  !o.timeoutAt1 vid && (o.fileFound vid
    && (!o.timeoutAt2 vid && !isErr (process_video_segments o vid vsegs).result))

/-- Did the per-video-loop iteration for `vid` of this job produce an
intermediate clip? -/
def assetSucceeds (o : Oracle) (segs : List Segment) (vid : String) : Bool :=
  assetSucceedsOn o vid (segsFor segs vid)

/-- Does an asset result carry an intermediate clip? -/
def isClipResult : AssetResult → Bool
  | .clip _ => true
  | .failed _ _ => false

/-- Is an asset result a timeout failure? -/
def isTimeoutFailure : AssetResult → Bool
  | .failed .timeout _ => true
  | _ => false

/-- Had the per-video 60-minute timer expired by the end of the iteration
(at any of the three observation points)? -/
def timerExpired (o : Oracle) (vid : String) : Bool :=
  o.timeoutAt1 vid || o.timeoutAt2 vid || o.timeoutAt3 vid

/-- Does an engine-call trace contain a fallback re-encode retry? -/
def hasRetryCall (calls : List EngineCall) : Bool :=
  calls.any (fun c => match c with
    | .concatRetry _ => true
    | .combineRetry => true
    | _ => false)

/-! ## Claim formalisations that the code refutes (used by the
counterexamples below) -/

/-- Claim C1 as stated: over the updates of one job run, while the status
is non-terminal the progress stays within 0 to 100 and never decreases. -/
def c1Progress (l : List Patch) : Prop :=
  (∀ p ∈ nonTerminalProgress l, p ≤ 100)
    ∧ isNonDecreasing (nonTerminalProgress l) = true

/-- Claim C6 as stated, at one asset id: the availability check returns
the key selected by the first pattern, in pattern-priority order, that
yields a match. -/
def c6PatternPriority (vid : String) (blobs : List String) : Prop :=
  findExistingVideo vid blobs = patternPriorityLookup vid blobs

/-- Claim C7 as stated, at one asset: if extraction failed after invoking
the engine at all, then a re-encode retry was attempted first. -/
def c7RetriedBeforeFailing (o : Oracle) (vid : String) (segs : List Segment) : Prop :=
  isErr (process_video_segments o vid segs).result = true →
    (process_video_segments o vid segs).calls ≠ [] →
      hasRetryCall (process_video_segments o vid segs).calls = true

/-- Claim C8 as stated, at one per-video-loop iteration: if the 60-minute
guard expired, the in-flight extraction was abandoned and the asset was
recorded as failed with reason timeout. -/
def c8AbandonOnExpiry (o : Oracle) (n k : Nat) (vid : String)
    (vsegs : List Segment) : Prop :=
  timerExpired o vid = true →
    isTimeoutFailure (assetIteration o n k vid vsegs).result = true

/-! ## Concrete scenarios for counterexamples and witnesses -/

/-- An environment in which every external call succeeds and no timer ever
fires; every source video is 100 seconds long. -/
def okOracle : Oracle :=
  { fileFound := fun _ => true, duration := fun _ => 100,
    extractOk := fun _ _ => true,
    concat1Ok := fun _ => true, concat2Ok := fun _ => true,
    combineCopyOk := true, combineReencodeOk := true, uploadOk := true,
    signedUrl := "https://storage.example/signed",
    timeoutAt1 := fun _ => false, timeoutAt2 := fun _ => false,
    timeoutAt3 := fun _ => false }

/-- A two-asset job: one 10-second segment of asset `A`, then one of `B`. -/
def segAB : List Segment :=
  [⟨some "A", .num 0, .num 10⟩, ⟨some "B", .num 0, .num 10⟩]

/-- Like `okOracle`, but every per-segment engine invocation fails. -/
def extractFailOracle : Oracle :=
  { okOracle with extractOk := fun _ _ => false }

/-- Like `okOracle`, but the per-video timer expires while asset `A`'s
extraction is in flight: the flag is still clear at both checkpoints the
code reads and set once extraction has finished. -/
def lateTimerOracle : Oracle :=
  { okOracle with timeoutAt3 := fun _ => true }

/-- Like `okOracle`, but every source video is 200 seconds long, so a
segment at 100-110 seconds is in range. -/
def longOracle : Oracle := { okOracle with duration := fun _ => 200 }

/-- An out-of-order request: the 100s-110s range submitted before the
10s-20s range of the same asset. -/
def outOfOrderSegs : List Segment :=
  [⟨some "A", .num 100, .num 110⟩, ⟨some "A", .num 10, .num 20⟩]

/-- A single-asset, single-segment job. -/
def segA1 : List Segment := [⟨some "A", .num 0, .num 10⟩]

/-- The field names `update_job_status` can ever write. -/
def jobUpdateFields : List String :=
  ["status", "updatedAt", "progress", "progressMessage", "error",
   "finalVideoUrl", "suggestions"]

/-- A sample job document for witnesses: a queued job with progress 40 and
a leftover error field from a previous attempt. -/
def sampleDoc : JobDoc := fun k =>
  if k = "status" then some (.str "Queued")
  else if k = "progress" then some (.nat 40)
  else if k = "error" then some (.str "previous failure")
  else none

/-! ## Helper lemmas -/

theorem withIdx_length {α : Type} : ∀ (l : List α) (i : Nat), (withIdx i l).length = l.length
  | [], _ => rfl
  | _ :: as, i => by simp [withIdx, withIdx_length as (i+1)]

theorem mem_withIdx {α : Type} : ∀ {l : List α} {i : Nat} {p : Nat × α},
    p ∈ withIdx i l → i ≤ p.1 ∧ p.1 < i + l.length := by
  intro l
  induction l with
  | nil => intro i p h; simp [withIdx] at h
  | cons a as ih =>
    intro i p h
    rw [withIdx, List.mem_cons] at h
    rcases h with h | h
    · subst h; simp
    · have := ih h
      constructor
      · omega
      · simp only [List.length_cons]; omega

theorem last_append_single {α : Type} : ∀ (l : List α) (a : α),
    (l ++ [a]).getLast? = some a := by
  intro l a
  induction l with
  | nil => rfl
  | cons b bs ih =>
    cases bs with
    | nil => rfl
    | cons c cs =>
      simp only [List.cons_append] at ih ⊢
      rw [List.getLast?_cons_cons]
      exact ih

theorem segProgress_le {i n : Nat} (h : i < n) : segProgress i n ≤ 75 := by
  have hn : 0 < n := Nat.lt_of_le_of_lt (Nat.zero_le i) h
  have h1 : (i + 1) * 15 ≤ n * 15 := Nat.mul_le_mul_right 15 h
  have h2 : (i + 1) * 15 / n ≤ n * 15 / n := Nat.div_le_div_right h1
  have h3 : n * 15 / n = 15 := Nat.mul_div_cancel_left 15 hn
  have h4 : (i + 1) * 15 / n ≤ 15 := Nat.le_trans h2 (Nat.le_of_eq h3)
  simpa [segProgress] using Nat.add_le_add_left h4 60

theorem ppVal_le {k n : Nat} (h1 : 1 ≤ k) (h2 : k ≤ n) : ppVal k n ≤ 80 := by
  have hn : 0 < n := Nat.le_trans h1 h2
  have ha : 25 * k ≤ 25 * n := Nat.mul_le_mul_left 25 h2
  have hb : 25 * k / n ≤ 25 * n / n := Nat.div_le_div_right ha
  have hc : 25 * n / n = 25 := by
    rw [Nat.mul_comm]; exact Nat.mul_div_cancel_left 25 hn
  have hd : 25 * k / n ≤ 25 := Nat.le_trans hb (Nat.le_of_eq hc)
  simpa [ppVal] using Nat.add_le_add_left hd 55

theorem segFiles_eq (o : Oracle) (vid : String) (dur : ℚ) (n : Nat)
    (hx : ∀ i, o.extractOk vid i = true) :
    ∀ (l : List VSeg) (j : Nat),
      ((withIdx j l).map (segmentStep o vid dur n)).filterMap (fun st => st.2.2)
        = (l.filter (fun s => decide (s.start < dur))).map
            (fun s => (⟨s.start, min s.stop dur⟩ : Range)) := by
  intro l
  induction l with
  | nil => intro j; rfl
  | cons s rest ih =>
    intro j
    by_cases hd : dur ≤ s.start
    · have hlt : ¬ (s.start < dur) := not_lt.mpr hd
      simp [withIdx, segmentStep, hd, hlt, ih (j+1)]
    · have hlt : s.start < dur := not_le.mp hd
      simp [withIdx, segmentStep, hd, hlt, hx j, ih (j+1)]

theorem segmentStep_updates (o : Oracle) (vid : String) (dur : ℚ) (n : Nat)
    (iv : Nat × VSeg) :
    ∀ u ∈ (segmentStep o vid dur n iv).1,
      u.videoUrl = none ∧ u.status = "Processing"
        ∧ u.progress = some (segProgress iv.1 n) := by
  intro u hu
  unfold segmentStep at hu
  by_cases hd : dur ≤ iv.2.start
  · simp [hd] at hu
  · by_cases hx : o.extractOk vid iv.1
    · simp [hd, hx] at hu
      subst hu
      simp [procPatch]
    · simp [hd, hx] at hu

theorem extractedFiles_eq (o : Oracle) (vid : String) (segs : List Segment)
    (hx : ∀ i, o.extractOk vid i = true) :
    extractedFiles o vid segs = clampedSurvivors segs (o.duration vid) := by
  unfold extractedFiles pvsSteps clampedSurvivors
  exact segFiles_eq o vid (o.duration vid) (valid_segments segs).length hx
    (valid_segments segs) 0

theorem segUpdates_shape (o : Oracle) (vid : String) (segs : List Segment) :
    ∀ w ∈ segUpdatesOf o vid segs,
      w.videoUrl = none ∧ (∀ p, w.progress = some p → p ≤ 75) := by
  intro w hw
  unfold segUpdatesOf pvsSteps at hw
  rw [List.mem_flatten] at hw
  obtain ⟨ws, hws, hwmem⟩ := hw
  rw [List.mem_map] at hws
  obtain ⟨st, hst, rfl⟩ := hws
  rw [List.mem_map] at hst
  obtain ⟨iv, hiv, rfl⟩ := hst
  have hb := mem_withIdx hiv
  have hlt : iv.1 < (valid_segments segs).length := by
    have := hb.2
    omega
  have hmain := segmentStep_updates o vid (o.duration vid)
    (valid_segments segs).length iv w hwmem
  refine ⟨hmain.1, ?_⟩
  intro p hp
  rw [hmain.2.2] at hp
  cases hp
  exact segProgress_le hlt

theorem pvs_updates_shape (o : Oracle) (vid : String) (segs : List Segment) :
    ∀ u ∈ (process_video_segments o vid segs).updates,
      u.videoUrl = none ∧ (∀ p, u.progress = some p → p ≤ 75) := by
  intro u hu
  unfold process_video_segments at hu
  split_ifs at hu with h1 h2 h3 h4
  · simp only [List.mem_singleton] at hu
    subst hu
    exact ⟨rfl, by intro p hp; simp [failPatch] at hp⟩
  · simp only [List.mem_cons, List.mem_append, List.mem_singleton, List.not_mem_nil, or_false] at hu
    rcases hu with (rfl | hu) | rfl
    · exact ⟨rfl, by intro p hp; simp [p60Of, procPatch] at hp; omega⟩
    · exact segUpdates_shape o vid segs u hu
    · exact ⟨rfl, by intro p hp; simp [failPatch] at hp⟩
  · simp only [List.mem_cons, List.mem_append, List.mem_singleton, List.not_mem_nil, or_false] at hu
    rcases hu with (rfl | hu) | rfl
    · exact ⟨rfl, by intro p hp; simp [p60Of, procPatch] at hp; omega⟩
    · exact segUpdates_shape o vid segs u hu
    · exact ⟨rfl, by intro p hp; simp [p75Patch, procPatch] at hp; omega⟩
  · simp only [List.mem_cons, List.mem_append, List.mem_singleton, List.not_mem_nil, or_false] at hu
    rcases hu with (rfl | hu) | rfl
    · exact ⟨rfl, by intro p hp; simp [p60Of, procPatch] at hp; omega⟩
    · exact segUpdates_shape o vid segs u hu
    · exact ⟨rfl, by intro p hp; simp [p75Patch, procPatch] at hp; omega⟩
  · simp only [List.mem_cons, List.mem_append, List.mem_singleton, List.not_mem_nil, or_false] at hu
    rcases hu with (rfl | hu) | rfl | rfl
    · exact ⟨rfl, by intro p hp; simp [p60Of, procPatch] at hp; omega⟩
    · exact segUpdates_shape o vid segs u hu
    · exact ⟨rfl, by intro p hp; simp [p75Patch, procPatch] at hp; omega⟩
    · exact ⟨rfl, by intro p hp; simp [failPatch] at hp⟩

theorem assetIteration_updates_shape (o : Oracle) (n k : Nat) (vid : String)
    (vs : List Segment) (h1 : 1 ≤ k) (h2 : k ≤ n) :
    ∀ u ∈ (assetIteration o n k vid vs).updates,
      u.videoUrl = none ∧ (∀ p, u.progress = some p → p ≤ 80) := by
  intro u hu
  have hpp := ppVal_le h1 h2
  simp only [assetIteration] at hu
  split_ifs at hu with t1 ff t2
  · simp only [List.mem_cons, List.mem_singleton, List.not_mem_nil, or_false] at hu
    rcases hu with rfl | rfl
    · exact ⟨rfl, by intro p hp; simp [procPatch] at hp; omega⟩
    · exact ⟨rfl, by intro p hp; simp [procPatch] at hp; omega⟩
  · simp only [List.mem_cons, List.mem_singleton, List.not_mem_nil, or_false] at hu
    rcases hu with rfl | rfl
    · exact ⟨rfl, by intro p hp; simp [procPatch] at hp; omega⟩
    · exact ⟨rfl, by intro p hp; simp [procPatch] at hp; omega⟩
  · cases hr : (process_video_segments o vid vs).result with
    | ok files =>
      rw [hr] at hu
      simp only [List.mem_cons] at hu
      rcases hu with rfl | hu
      · exact ⟨rfl, by intro p hp; simp [procPatch] at hp; omega⟩
      · have := pvs_updates_shape o vid vs u hu
        exact ⟨this.1, by intro p hp; have := this.2 p hp; omega⟩
    | error e =>
      rw [hr] at hu
      simp only [List.mem_cons, List.mem_append, List.mem_singleton,
        List.not_mem_nil, or_false] at hu
      rcases hu with (rfl | hu) | rfl
      · exact ⟨rfl, by intro p hp; simp [procPatch] at hp; omega⟩
      · have := pvs_updates_shape o vid vs u hu
        exact ⟨this.1, by intro p hp; have := this.2 p hp; omega⟩
      · exact ⟨rfl, by intro p hp; simp [procPatch] at hp; omega⟩
  · simp only [List.mem_cons, List.mem_singleton, List.not_mem_nil, or_false] at hu
    rcases hu with rfl | rfl
    · exact ⟨rfl, by intro p hp; simp [procPatch] at hp; omega⟩
    · exact ⟨rfl, by intro p hp; simp [procPatch] at hp; omega⟩

theorem loopUpdates_shape (o : Oracle) (segs : List Segment) :
    ∀ u ∈ loopUpdatesOf o segs,
      u.videoUrl = none ∧ (∀ p, u.progress = some p → p ≤ 80) := by
  intro u hu
  unfold loopUpdatesOf jobOutcomes at hu
  rw [List.mem_flatten] at hu
  obtain ⟨ws, hws, hwmem⟩ := hu
  rw [List.mem_map] at hws
  obtain ⟨x, hx, rfl⟩ := hws
  rw [List.mem_map] at hx
  obtain ⟨kv, hkv, rfl⟩ := hx
  have hb := mem_withIdx hkv
  have hlen : (withIdx 1 (dedupIds segs)).length = (dedupIds segs).length :=
    withIdx_length _ _
  exact assetIteration_updates_shape o (dedupIds segs).length kv.1 kv.2
    (segsFor segs kv.2) hb.1 (by have := hb.2; omega) u hwmem

theorem psfj_clips_eq (o : Oracle) (vids : List String) (segs : List Segment)
    (h : ¬(vids = [] ∨ segs = [])) :
    (process_segments_for_job o vids segs).clips = clipsOf o segs := by
  unfold process_segments_for_job
  rw [if_neg h]
  split_ifs <;> rfl

theorem psfj_failed_eq (o : Oracle) (vids : List String) (segs : List Segment)
    (h : ¬(vids = [] ∨ segs = [])) :
    (process_segments_for_job o vids segs).failed = failedOf o segs := by
  unfold process_segments_for_job
  rw [if_neg h]
  split_ifs <;> rfl

theorem pvj_clips_eq (o : Oracle) (vids : List String) (segs : List Segment) :
    (process_video_job o vids segs).clips
      = (process_segments_for_job o vids segs).clips := by
  cases hr : (process_segments_for_job o vids segs).result <;>
    simp [process_video_job, hr]

theorem pvj_failed_eq (o : Oracle) (vids : List String) (segs : List Segment) :
    (process_video_job o vids segs).failed
      = (process_segments_for_job o vids segs).failed := by
  cases hr : (process_segments_for_job o vids segs).result <;>
    simp [process_video_job, hr]

theorem pvj_combined_eq (o : Oracle) (vids : List String) (segs : List Segment) :
    (process_video_job o vids segs).combined
      = (process_segments_for_job o vids segs).combined := by
  cases hr : (process_segments_for_job o vids segs).result <;>
    simp [process_video_job, hr]

theorem pvj_result_eq (o : Oracle) (vids : List String) (segs : List Segment) :
    (process_video_job o vids segs).result
      = (process_segments_for_job o vids segs).result := by
  cases hr : (process_segments_for_job o vids segs).result <;>
    simp [process_video_job, hr]

theorem clips_failed_split (o : Oracle) (segs : List Segment) :
    (clipsOf o segs).length + (failedOf o segs).length = (dedupIds segs).length := by
  unfold clipsOf failedOf
  have key : ∀ (l : List (String × AssetOutcome)),
      (l.filterMap (fun x => match x.2.result with
        | .clip c => some (x.1, c) | .failed _ _ => none)).length
      + (l.filterMap (fun x => match x.2.result with
        | .failed r e => some (r, e) | .clip _ => none)).length
      = l.length := by
    intro l
    induction l with
    | nil => rfl
    | cons a t ih =>
      cases h : a.2.result with
      | clip c =>
        simp only [List.filterMap_cons, h, List.length_cons]
        omega
      | failed r e =>
        simp only [List.filterMap_cons, h, List.length_cons]
        omega
  rw [key]
  unfold jobOutcomes
  rw [List.length_map, withIdx_length]

theorem assetIteration_clip_iff (o : Oracle) (n k : Nat) (vid : String)
    (vs : List Segment) :
    isClipResult (assetIteration o n k vid vs).result = assetSucceedsOn o vid vs := by
  unfold assetIteration assetSucceedsOn
  split_ifs with t1 ff t2
  · simp [isClipResult, t1]
  · simp [isClipResult, t1, ff, t2]
  · cases hr : (process_video_segments o vid vs).result with
    | ok files => simp [isClipResult, t1, ff, t2, hr, isErr]
    | error e => simp [isClipResult, t1, ff, t2, hr, isErr]
  · simp only [Bool.not_eq_true] at ff
    simp [isClipResult, t1, ff]

theorem assetIteration_timeout_iff (o : Oracle) (n k : Nat) (vid : String)
    (vs : List Segment) :
    isTimeoutFailure (assetIteration o n k vid vs).result = true
      ↔ (o.timeoutAt1 vid = true ∨ (o.fileFound vid = true ∧ o.timeoutAt2 vid = true)) := by
  unfold assetIteration
  split_ifs with t1 ff t2
  · simp [isTimeoutFailure, t1]
  · simp [isTimeoutFailure, t1, ff, t2]
  · cases hr : (process_video_segments o vid vs).result with
    | ok files =>
      simp only [Bool.not_eq_true] at t1 t2
      simp [isTimeoutFailure, hr, t1, t2]
    | error e =>
      simp only [Bool.not_eq_true] at t1 t2
      simp [isTimeoutFailure, hr, t1, t2]
  · simp only [Bool.not_eq_true] at t1 ff
    simp [isTimeoutFailure, t1, ff]

theorem clips_ids (o : Oracle) (segs : List Segment) :
    (clipsOf o segs).map Prod.fst
      = (dedupIds segs).filter (fun v => assetSucceeds o segs v) := by
  have key : ∀ (keys : List String) (i n : Nat),
      (((withIdx i keys).map (fun kv =>
          (kv.2, assetIteration o n kv.1 kv.2 (segsFor segs kv.2)))).filterMap
        (fun x => match x.2.result with
          | .clip c => some (x.1, c) | .failed _ _ => none)).map Prod.fst
      = keys.filter (fun v => assetSucceedsOn o v (segsFor segs v)) := by
    intro keys
    induction keys with
    | nil => intro i n; rfl
    | cons v t ih =>
      intro i n
      simp only [withIdx, List.map_cons, List.filterMap_cons]
      cases hr : (assetIteration o n i v (segsFor segs v)).result with
      | clip c =>
        have hs : assetSucceedsOn o v (segsFor segs v) = true := by
          rw [← assetIteration_clip_iff o n i v (segsFor segs v), hr]
          rfl
        have ih2 := ih (i+1) n
        rw [List.filterMap_map] at ih2
        simp [hs, ih2]
      | failed r e =>
        have hs : assetSucceedsOn o v (segsFor segs v) = false := by
          rw [← assetIteration_clip_iff o n i v (segsFor segs v), hr]
          rfl
        have ih2 := ih (i+1) n
        rw [List.filterMap_map] at ih2
        simp [hs, ih2]
  unfold clipsOf jobOutcomes assetSucceeds
  exact key (dedupIds segs) 1 (dedupIds segs).length

theorem combineOk_of_copy (o : Oracle) (segs : List Segment)
    (hcb : o.combineCopyOk = true) : combineOk o segs = true := by
  unfold combineOk
  rw [hcb]
  simp

theorem psfj_zero_form (o : Oracle) (vids : List String) (segs : List Segment)
    (h : ¬(vids = [] ∨ segs = [])) (hc : clipsOf o segs = []) :
    process_segments_for_job o vids segs =
      { updates := preAnalyzePatch vids segs :: loopUpdatesOf o segs,
        calls := loopCallsOf o segs, clips := clipsOf o segs,
        failed := failedOf o segs, combined := none,
        result := .error (aggFailMsg ((failedOf o segs).map (fun f => f.2))) } := by
  unfold process_segments_for_job
  rw [if_neg h, if_pos hc]

theorem psfj_ok_form (o : Oracle) (vids : List String) (segs : List Segment)
    (h : ¬(vids = [] ∨ segs = [])) (hc : ¬(clipsOf o segs = []))
    (hcb : o.combineCopyOk = true) (hup : o.uploadOk = true) :
    process_segments_for_job o vids segs =
      { updates := preAnalyzePatch vids segs :: loopUpdatesOf o segs
          ++ [postLoopPatch o segs] ++ combineUpdates o segs
          ++ [uploadingPatch, uploadDonePatch o.signedUrl,
              completionPatch (failedOf o segs).length (clipsOf o segs).length o.signedUrl],
        calls := loopCallsOf o segs ++ combineCalls o segs,
        clips := clipsOf o segs, failed := failedOf o segs,
        combined := some (combinedContentOf o segs),
        result := .ok o.signedUrl } := by
  unfold process_segments_for_job
  rw [if_neg h, if_neg hc, if_pos (combineOk_of_copy o segs hcb), if_pos hup]

theorem combineUpdates_shape (o : Oracle) (segs : List Segment) :
    ∀ u ∈ combineUpdates o segs,
      u = procPatch 80 "Combining multiple video segments..." := by
  intro u hu
  unfold combineUpdates at hu
  split_ifs at hu
  · simp at hu
  · simpa using hu

theorem postLoopPatch_shape (o : Oracle) (segs : List Segment) :
    (postLoopPatch o segs).videoUrl = none
      ∧ (postLoopPatch o segs).progress = some 80
      ∧ (postLoopPatch o segs).status = "Processing" := by
  unfold postLoopPatch
  split_ifs <;> simp [procPatch]

theorem psfj_updates_progress_le (o : Oracle) (vids : List String)
    (segs : List Segment) :
    ∀ u ∈ (process_segments_for_job o vids segs).updates,
      ∀ p, u.progress = some p → p ≤ 100 := by
  intro u hu
  unfold process_segments_for_job at hu
  split_ifs at hu <;>
    simp only [List.mem_cons, List.mem_append, List.mem_singleton,
      List.not_mem_nil, or_false] at hu
  · rcases hu with rfl | hu
    · intro p hp
      simp [preAnalyzePatch, procPatch] at hp
      omega
    · intro p hp
      have := (loopUpdates_shape o segs u hu).2 p hp
      omega
  · rcases hu with (((rfl | hu) | rfl) | hu) | rfl | rfl | rfl
    · intro p hp
      simp [preAnalyzePatch, procPatch] at hp
      omega
    · intro p hp
      have := (loopUpdates_shape o segs u hu).2 p hp
      omega
    · intro p hp
      have h80 := (postLoopPatch_shape o segs).2.1
      rw [h80] at hp
      cases hp
      omega
    · have := combineUpdates_shape o segs u hu
      subst this
      intro p hp
      simp [procPatch] at hp
      omega
    · intro p hp
      simp [uploadingPatch] at hp
      omega
    · intro p hp
      simp [uploadDonePatch] at hp
      omega
    · intro p hp
      simp [completionPatch] at hp
      omega
  · rcases hu with (((rfl | hu) | rfl) | hu) | rfl | rfl
    · intro p hp
      simp [preAnalyzePatch, procPatch] at hp
      omega
    · intro p hp
      have := (loopUpdates_shape o segs u hu).2 p hp
      omega
    · intro p hp
      have h80 := (postLoopPatch_shape o segs).2.1
      rw [h80] at hp
      cases hp
      omega
    · have := combineUpdates_shape o segs u hu
      subst this
      intro p hp
      simp [procPatch] at hp
      omega
    · intro p hp
      simp [uploadingPatch] at hp
      omega
    · intro p hp
      simp [uploadFailPatch] at hp
  · rcases hu with ((rfl | hu) | rfl) | hu
    · intro p hp
      simp [preAnalyzePatch, procPatch] at hp
      omega
    · intro p hp
      have := (loopUpdates_shape o segs u hu).2 p hp
      omega
    · intro p hp
      have h80 := (postLoopPatch_shape o segs).2.1
      rw [h80] at hp
      cases hp
      omega
    · have := combineUpdates_shape o segs u hu
      subst this
      intro p hp
      simp [procPatch] at hp
      omega

theorem pvj_updates_progress_le (o : Oracle) (vids : List String)
    (segs : List Segment) :
    ∀ u ∈ (process_video_job o vids segs).updates,
      ∀ p, u.progress = some p → p ≤ 100 := by
  intro u hu
  cases hr : (process_segments_for_job o vids segs).result with
  | ok url =>
    simp only [process_video_job, hr] at hu
    simp only [List.mem_cons, List.mem_append, List.mem_singleton,
      List.not_mem_nil, or_false] at hu
    rcases hu with (rfl | hu) | rfl
    · intro p hp
      simp [procPatch] at hp
      omega
    · exact psfj_updates_progress_le o vids segs u hu
    · intro p hp
      simp [pubsubDonePatch] at hp
      omega
  | error e =>
    simp only [process_video_job, hr] at hu
    simp only [List.mem_cons, List.mem_append, List.mem_singleton,
      List.not_mem_nil, or_false] at hu
    rcases hu with (rfl | hu) | rfl
    · intro p hp
      simp [procPatch] at hp
      omega
    · exact psfj_updates_progress_le o vids segs u hu
    · intro p hp
      simp [pubsubFailPatch] at hp

theorem segCalls_count_le (o : Oracle) (vid : String) (dur : ℚ) (n i : Nat) :
    ∀ (l : List VSeg) (j : Nat),
      ((((withIdx j l).map (segmentStep o vid dur n)).map
        (fun st => st.2.1)).flatten.count (EngineCall.extractSeg vid i)) ≤ 1
      ∧ (i < j → ((((withIdx j l).map (segmentStep o vid dur n)).map
          (fun st => st.2.1)).flatten.count (EngineCall.extractSeg vid i)) = 0) := by
  intro l
  induction l with
  | nil => intro j; exact ⟨by simp [withIdx], fun _ => by simp [withIdx]⟩
  | cons s t ih =>
    intro j
    have hstep : (segmentStep o vid dur n (j, s)).2.1 = []
        ∨ (segmentStep o vid dur n (j, s)).2.1 = [EngineCall.extractSeg vid j] := by
      simp only [segmentStep]
      split_ifs <;> simp
    have htail := ih (j+1)
    have hc : ∀ a : List EngineCall,
        ((((withIdx j (s :: t)).map (segmentStep o vid dur n)).map
          (fun st => st.2.1)).flatten.count (EngineCall.extractSeg vid i))
        = (segmentStep o vid dur n (j, s)).2.1.count (EngineCall.extractSeg vid i)
          + ((((withIdx (j+1) t).map (segmentStep o vid dur n)).map
            (fun st => st.2.1)).flatten.count (EngineCall.extractSeg vid i)) := by
      intro _
      simp [withIdx, List.count_append]
    rcases hstep with h0 | h1
    · constructor
      · rw [hc []]
        rw [h0]
        simpa using htail.1
      · intro hij
        rw [hc []]
        rw [h0]
        simpa using htail.2 (by omega)
    · by_cases hij : i = j
      · subst hij
        constructor
        · rw [hc []]
          rw [h1, htail.2 (by omega)]
          simp [List.count_singleton]
        · intro hcontra
          omega
      · constructor
        · rw [hc []]
          rw [h1]
          have hz : ([EngineCall.extractSeg vid j].count (EngineCall.extractSeg vid i)) = 0 := by
            simp [List.count_singleton]
            intro hx
            exact hij hx.symm
          rw [hz]
          simpa using htail.1
        · intro hij2
          rw [hc []]
          rw [h1]
          have hz : ([EngineCall.extractSeg vid j].count (EngineCall.extractSeg vid i)) = 0 := by
            simp [List.count_singleton]
            intro hx
            exact hij hx.symm
          rw [hz, htail.2 (by omega)]

theorem pvj_updates_ok (o : Oracle) (vids : List String) (segs : List Segment)
    (url : String)
    (hr : (process_segments_for_job o vids segs).result = .ok url) :
    (process_video_job o vids segs).updates
      = procPatch 50 "Starting video segment processing via Pub/Sub..."
          :: (process_segments_for_job o vids segs).updates
          ++ [pubsubDonePatch url] := by
  simp [process_video_job, hr]

theorem pvj_updates_error (o : Oracle) (vids : List String) (segs : List Segment)
    (e : String)
    (hr : (process_segments_for_job o vids segs).result = .error e) :
    (process_video_job o vids segs).updates
      = procPatch 50 "Starting video segment processing via Pub/Sub..."
          :: (process_segments_for_job o vids segs).updates
          ++ [pubsubFailPatch e] := by
  simp [process_video_job, hr]

theorem lastStatus_cons_append (a b : Patch) (l : List Patch) :
    lastStatus (a :: l ++ [b]) = some b.status := by
  unfold lastStatus
  rw [show a :: l ++ [b] = (a :: l) ++ [b] from rfl, last_append_single]
  rfl

theorem psfj_zero_videoUrl (o : Oracle) (vids : List String) (segs : List Segment)
    (h : ¬(vids = [] ∨ segs = [])) (hc : clipsOf o segs = []) :
    ∀ u ∈ (process_segments_for_job o vids segs).updates, u.videoUrl = none := by
  rw [psfj_zero_form o vids segs h hc]
  intro u hu
  simp only [List.mem_cons] at hu
  rcases hu with rfl | hu
  · rfl
  · exact (loopUpdates_shape o segs u hu).1

theorem pvs_ok_eq (o : Oracle) (vid : String) (segs : List Segment)
    (l : List Range)
    (hl : (process_video_segments o vid segs).result = .ok l) :
    l = extractedFiles o vid segs := by
  unfold process_video_segments at hl
  by_cases h1 : valid_segments segs = []
  · rw [if_pos h1] at hl
    cases hl
  · rw [if_neg h1] at hl
    by_cases h2 : extractedFiles o vid segs = []
    · rw [if_pos h2] at hl
      cases hl
    · rw [if_neg h2] at hl
      by_cases h3 : o.concat1Ok vid = true
      · rw [if_pos h3] at hl
        cases hl
        rfl
      · rw [if_neg h3] at hl
        by_cases h4 : o.concat2Ok vid = true
        · rw [if_pos h4] at hl
          cases hl
          rfl
        · rw [if_neg h4] at hl
          cases hl

/-! ## Claim C1 — progress monotonicity -/

/-- Claim C1, counterexample: the claim states that while a job's status is
non-terminal the progressPercent stays within 0 to 100 and never decreases,
in particular across the per-asset loop and each asset's segment
processing.  For the two-asset job `segAB` under a fully successful
environment, the emitted progress sequence is
50, 55, 67, 60, 75, 75, 80, 60, 75, 75, 80, 80, 85: the per-asset-loop
update `int(55 + k/2*25)` (67, then 80) is followed by the fixed
`Processing 60` update at the start of that asset's segment processing, so
the sequence decreases twice and the claim is false. -/
theorem c1_counterexample :
    ¬ c1Progress (process_video_job okOracle ["A", "B"] segAB).updates := by
  unfold c1Progress
  decide

/-- Claim C1 (amended): every progress value any pipeline update carries is
between 0 and 100, for every environment and every job; the sequence,
however, is not non-decreasing — each asset's segment processing restarts
at the fixed 60 percent while the per-asset loop has already written up to
80 percent (see the counterexample). -/
theorem c1_progress_bounded (o : Oracle) (vids : List String)
    (segs : List Segment) :
    ∀ u ∈ (process_video_job o vids segs).updates,
      ∀ p, u.progress = some p → 0 ≤ p ∧ p ≤ 100 := by
  intro u hu p hp
  exact ⟨Nat.zero_le p, pvj_updates_progress_le o vids segs u hu p hp⟩

/-- Witness for the amended C1 theorem at the first update of a concrete
run. -/
theorem c1_progress_bounded_witness : 0 ≤ 50 ∧ 50 ≤ 100 :=
  c1_progress_bounded okOracle ["A", "B"] segAB
    (procPatch 50 "Starting video segment processing via Pub/Sub...")
    (by decide) 50 rfl

/-! ## Claim C2 — partial-failure tolerance and terminal states -/

/-- Claim C2: for a work message whose per-asset loop runs (non-empty video
ids and segments) and whose job-level combination and upload succeed,
(1) every grouped asset is recorded exactly once, as either an intermediate
clip or a failure entry — no asset-level failure aborts the loop;
(2) when at least one asset produced a clip, the job ends `Complete` and a
`Complete` update carrying the completion message that counts the failed
assets is written; (3) when no asset produced a clip, the job ends `Failed`
with the aggregated per-asset reasons, nothing is combined, and no update
ever carries a final video URL. -/
theorem c2_partial_failure_policy (o : Oracle) (vids : List String)
    (segs : List Segment) (hv : vids ≠ []) (hs : segs ≠ [])
    (hcb : o.combineCopyOk = true) (hup : o.uploadOk = true) :
    ((dedupIds segs).length = (process_video_job o vids segs).clips.length
        + (process_video_job o vids segs).failed.length)
    ∧ ((process_video_job o vids segs).clips ≠ [] →
        (process_video_job o vids segs).result = .ok o.signedUrl
        ∧ lastStatus (process_video_job o vids segs).updates = some "Complete"
        ∧ completionPatch (process_video_job o vids segs).failed.length
            (process_video_job o vids segs).clips.length o.signedUrl
            ∈ (process_video_job o vids segs).updates)
    ∧ ((process_video_job o vids segs).clips = [] →
        (process_video_job o vids segs).result
            = .error (aggFailMsg ((process_video_job o vids segs).failed.map (fun f => f.2)))
        ∧ lastStatus (process_video_job o vids segs).updates = some "Failed"
        ∧ (process_video_job o vids segs).combined = none
        ∧ ∀ u ∈ (process_video_job o vids segs).updates, u.videoUrl = none) := by
  have hor : ¬(vids = [] ∨ segs = []) := not_or.mpr ⟨hv, hs⟩
  have hclips : (process_video_job o vids segs).clips = clipsOf o segs := by
    rw [pvj_clips_eq, psfj_clips_eq o vids segs hor]
  have hfailed : (process_video_job o vids segs).failed = failedOf o segs := by
    rw [pvj_failed_eq, psfj_failed_eq o vids segs hor]
  refine ⟨?_, ?_, ?_⟩
  · rw [hclips, hfailed]
    exact (clips_failed_split o segs).symm
  · intro hne
    rw [hclips] at hne
    have hform := psfj_ok_form o vids segs hor hne hcb hup
    have hres : (process_segments_for_job o vids segs).result = .ok o.signedUrl := by
      rw [hform]
    refine ⟨?_, ?_, ?_⟩
    · rw [pvj_result_eq, hres]
    · rw [pvj_updates_ok o vids segs o.signedUrl hres]
      exact lastStatus_cons_append _ _ _
    · rw [pvj_updates_ok o vids segs o.signedUrl hres, hform, hclips, hfailed]
      simp
  · intro hzero
    rw [hclips] at hzero
    have hform := psfj_zero_form o vids segs hor hzero
    have hres : (process_segments_for_job o vids segs).result
        = .error (aggFailMsg ((failedOf o segs).map (fun f => f.2))) := by
      rw [hform]
    refine ⟨?_, ?_, ?_, ?_⟩
    · rw [pvj_result_eq, hres, hfailed]
    · rw [pvj_updates_error o vids segs _ hres]
      exact lastStatus_cons_append _ _ _
    · rw [pvj_combined_eq, hform]
    · rw [pvj_updates_error o vids segs _ hres]
      intro u hu
      simp only [List.mem_cons, List.mem_append, List.mem_singleton,
        List.not_mem_nil, or_false] at hu
      rcases hu with (rfl | hu) | rfl
      · rfl
      · exact psfj_zero_videoUrl o vids segs hor hzero u hu
      · rfl

/-- Witness for C2 at a concrete all-success two-asset job. -/
theorem c2_partial_failure_policy_witness :
    (dedupIds segAB).length = (process_video_job okOracle ["A", "B"] segAB).clips.length
      + (process_video_job okOracle ["A", "B"] segAB).failed.length :=
  (c2_partial_failure_policy okOracle ["A", "B"] segAB (by decide) (by decide)
    rfl rfl).1

/-! ## Claim C3 — per-segment validation and clamping -/

/-- Claim C3: with the codec engine behaving (every per-segment invocation
and the first concatenation attempt succeed), extraction keeps exactly the
segments that pass validation — a segment is dropped when `start < 0`,
`end ≤ start` (both checked by the first pass `conv1`), or
`start ≥ assetDuration`; a surviving segment whose `end` exceeds the asset
duration is clamped to the asset duration rather than rejected (the
`min stop dur` in `clampedSurvivors`); and extraction raises an error if
and only if validation leaves no segment. -/
theorem c3_validation_clamping (o : Oracle) (vid : String) (segs : List Segment)
    (hx : ∀ i, o.extractOk vid i = true) (hc : o.concat1Ok vid = true) :
    (isErr (process_video_segments o vid segs).result = true
        ↔ clampedSurvivors segs (o.duration vid) = [])
    ∧ (∀ l, (process_video_segments o vid segs).result = .ok l
        → l = clampedSurvivors segs (o.duration vid))
    ∧ (∀ s : Segment, ∀ st en, getTime s.startTimeSeconds = some st
        → getTime s.endTimeSeconds = some en → (st < 0 ∨ en ≤ st)
        → conv1 s = none) := by
  have hfiles := extractedFiles_eq o vid segs hx
  refine ⟨?_, ?_, ?_⟩
  · by_cases h1 : valid_segments segs = []
    · have hsurv : clampedSurvivors segs (o.duration vid) = [] := by
        unfold clampedSurvivors
        rw [h1]
        rfl
      unfold process_video_segments
      rw [if_pos h1]
      simp [isErr, hsurv]
    · by_cases h2 : extractedFiles o vid segs = []
      · unfold process_video_segments
        rw [if_neg h1, if_pos h2]
        simp [isErr, ← hfiles, h2]
      · unfold process_video_segments
        rw [if_neg h1, if_neg h2, if_pos hc]
        simp [isErr, ← hfiles, h2]
  · intro l hl
    exact (pvs_ok_eq o vid segs l hl).trans hfiles
  · intro s st en hst hen hbad
    have hcond : ¬ (0 ≤ st ∧ st < en) := by
      rintro ⟨ha, hb⟩
      rcases hbad with hlt | hle
      · exact absurd ha (not_le.mpr hlt)
      · exact absurd hb (not_lt.mpr hle)
    simp only [conv1, hst, hen]
    rw [if_neg hcond]

/-- Witness for C3: a valid single segment is not rejected. -/
theorem c3_validation_clamping_witness :
    isErr (process_video_segments okOracle "A" segA1).result = false := by
  have h := (c3_validation_clamping okOracle "A" segA1 (fun _ => rfl) rfl).1
  revert h
  decide

/-! ## Claim C4 — submission order within one asset -/

/-- Claim C4: the sub-clips of one asset are concatenated in the order the
segments were supplied — the extracted ranges are exactly
`clampedSurvivors`, whose start offsets form a subsequence of the submitted
(converted) start offsets in submission order; and for the out-of-order
request `outOfOrderSegs` (100s-110s submitted before 10s-20s) the
intermediate clip holds those ranges in submission order, not chronological
order. -/
theorem c4_submission_order (o : Oracle) (vid : String) (segs : List Segment)
    (hx : ∀ i, o.extractOk vid i = true) :
    (∀ l, (process_video_segments o vid segs).result = .ok l
        → l = clampedSurvivors segs (o.duration vid)
          ∧ (l.map Range.start).Sublist ((valid_segments segs).map VSeg.start))
    ∧ (process_video_segments longOracle "A" outOfOrderSegs).result
        = .ok [⟨100, 110⟩, ⟨10, 20⟩] := by
  have hfiles := extractedFiles_eq o vid segs hx
  constructor
  · intro l hl
    have hl2 : l = clampedSurvivors segs (o.duration vid) :=
      (pvs_ok_eq o vid segs l hl).trans hfiles
    refine ⟨hl2, ?_⟩
    rw [hl2]
    unfold clampedSurvivors
    rw [List.map_map]
    have hmap : (Range.start ∘ fun s => (⟨s.start, min s.stop (o.duration vid)⟩ : Range))
        = VSeg.start := by
      funext s
      rfl
    rw [hmap]
    exact (List.filter_sublist (valid_segments segs)).map VSeg.start
  · rfl

/-- Witness for C4: concrete out-of-order extraction, via the theorem. -/
theorem c4_submission_order_witness :
    (process_video_segments longOracle "A" outOfOrderSegs).result
      = .ok [⟨100, 110⟩, ⟨10, 20⟩] :=
  (c4_submission_order okOracle "A" segA1 (fun _ => rfl)).2

/-! ## Claim C5 — first-appearance order across assets -/

/-- Claim C5: the intermediate clips handed to the Combiner are exactly the
successful assets in the first-appearance order of the submitted segment
list (the insertion order of the `segments_by_video` dict keys, computed by
`dedupIds`), and the combined artifact is their contents concatenated in
that same order; the loop is sequential, so this order cannot depend on
which asset's extraction finished first. -/
theorem c5_first_appearance_order (o : Oracle) (vids : List String)
    (segs : List Segment) (hv : vids ≠ []) (hs : segs ≠ []) :
    ((process_video_job o vids segs).clips.map Prod.fst
        = (dedupIds segs).filter (fun v => assetSucceeds o segs v))
    ∧ (∀ c, (process_video_job o vids segs).combined = some c
        → c = ((process_video_job o vids segs).clips.map (fun x => x.2)).flatten) := by
  have hor : ¬(vids = [] ∨ segs = []) := not_or.mpr ⟨hv, hs⟩
  constructor
  · rw [pvj_clips_eq, psfj_clips_eq o vids segs hor, clips_ids]
  · intro c hc
    rw [pvj_combined_eq] at hc
    rw [pvj_clips_eq, psfj_clips_eq o vids segs hor]
    unfold process_segments_for_job at hc
    rw [if_neg hor] at hc
    by_cases h2 : clipsOf o segs = []
    · rw [if_pos h2] at hc
      cases hc
    · rw [if_neg h2] at hc
      by_cases h3 : combineOk o segs = true
      · rw [if_pos h3] at hc
        by_cases h4 : o.uploadOk = true
        · rw [if_pos h4] at hc
          cases hc
          rfl
        · rw [if_neg h4] at hc
          cases hc
          rfl
      · rw [if_neg h3] at hc
        cases hc

/-- Witness for C5 at a concrete two-asset job. -/
theorem c5_first_appearance_order_witness :
    (process_video_job okOracle ["A", "B"] segAB).clips.map Prod.fst
      = (dedupIds segAB).filter (fun v => assetSucceeds okOracle segAB v) :=
  (c5_first_appearance_order okOracle ["A", "B"] segAB (by decide) (by decide)).1

/-! ## Claim C6 — availability check pattern priority -/

/-- Claim C6, counterexample: the claim states the availability check
returns the key selected by the first pattern, in pattern-priority order,
that yields a match.  With the listing `["X_t.mp4", "X_t.mp4.mp4"]`, the
highest-priority pattern `^X_.*\.mp4\.mp4$` matches `X_t.mp4.mp4`, yet the
code walks blobs in listing order and returns `X_t.mp4` (matched by the
second pattern), so the claim is false: blob-listing order, not pattern
priority, decides. -/
theorem c6_counterexample :
    ¬ c6PatternPriority "X" ["X_t.mp4", "X_t.mp4.mp4"]
    ∧ findExistingVideo "X" ["X_t.mp4", "X_t.mp4.mp4"] = some "X_t.mp4"
    ∧ patternPriorityLookup "X" ["X_t.mp4", "X_t.mp4.mp4"] = some "X_t.mp4.mp4" := by
  refine ⟨?_, by decide, by decide⟩
  unfold c6PatternPriority
  decide

/-- Claim C6 (amended): the availability check lists the backing store
exactly once for the whole batch, and for each asset id it scans that one
listing in listing order, returning the first object key that matches any
of the three accepted patterns — pattern priority does not decide between
naming variants — and absent exactly when no listed key matches any
pattern. -/
theorem c6_listing_order (videoIds blobs : List String) :
    ((check_existing_videos_in_gcs videoIds blobs).2 = 1)
    ∧ ((check_existing_videos_in_gcs videoIds blobs).1
        = videoIds.map (fun vid => (vid, blobs.find? (matchesAnyPattern vid))))
    ∧ (∀ vid, findExistingVideo vid blobs = none
        ↔ ∀ b ∈ blobs, matchesAnyPattern vid b = false) := by
  refine ⟨rfl, rfl, ?_⟩
  intro vid
  unfold findExistingVideo
  rw [List.find?_eq_none]
  simp only [Bool.not_eq_true]

/-- Witness for the amended C6 theorem. -/
theorem c6_listing_order_witness :
    (check_existing_videos_in_gcs ["X"] ["X_t.mp4"]).2 = 1 :=
  (c6_listing_order ["X"] ["X_t.mp4"]).1

/-! ## Claim C7 — engine-failure retry policy -/

/-- Claim C7, counterexample: the claim states every engine invocation
failure is retried once with a re-encode strategy before the asset is
recorded as failed.  For a single-segment asset whose per-segment engine
invocation fails, the loop's `except ffmpeg.Error: continue` skips the
segment without any retry, the asset then fails with
`No valid video segments could be created`, and the trace holds exactly one
engine call and no retry — so the claim is false. -/
theorem c7_counterexample :
    ¬ c7RetriedBeforeFailing extractFailOracle "A" segA1
    ∧ (process_video_segments extractFailOracle "A" segA1).calls
        = [EngineCall.extractSeg "A" 0] := by
  refine ⟨?_, by decide⟩
  unfold c7RetriedBeforeFailing
  decide

/-- Claim C7 (amended): the copy-then-re-encode retry exists only at the
concatenation step — an engine failure while extracting an individual
segment is never retried (each segment index is invoked at most once and a
failed segment is skipped); the concatenation fallback runs exactly when
the first concatenation attempt failed, and the asset's concatenation fails
only after both the copy attempt and the re-encode retry failed. -/
theorem c7_retry_only_at_concat (o : Oracle) (vid : String)
    (segs : List Segment) :
    (∀ i, ((process_video_segments o vid segs).calls.count
        (EngineCall.extractSeg vid i)) ≤ 1)
    ∧ ((EngineCall.concatRetry vid ∈ (process_video_segments o vid segs).calls)
        ↔ (extractedFiles o vid segs ≠ [] ∧ o.concat1Ok vid = false))
    ∧ ((process_video_segments o vid segs).result
          = .error ("Failed to process video segments: " ++ concatFailLocal)
        ↔ (extractedFiles o vid segs ≠ [] ∧ o.concat1Ok vid = false
            ∧ o.concat2Ok vid = false)) := by
  have hcount : ∀ i, (segCallsOf o vid segs).count (EngineCall.extractSeg vid i) ≤ 1 := by
    intro i
    unfold segCallsOf pvsSteps
    exact (segCalls_count_le o vid (o.duration vid)
      (valid_segments segs).length i (valid_segments segs) 0).1
  have hext : ∀ c ∈ segCallsOf o vid segs, ∃ i, c = EngineCall.extractSeg vid i := by
    intro c hc
    unfold segCallsOf pvsSteps at hc
    rw [List.mem_flatten] at hc
    obtain ⟨cs, hcs, hcmem⟩ := hc
    rw [List.mem_map] at hcs
    obtain ⟨st, hst, rfl⟩ := hcs
    rw [List.mem_map] at hst
    obtain ⟨iv, hiv, rfl⟩ := hst
    revert hcmem
    simp only [segmentStep]
    split_ifs with hd hx
    · intro h
      simp at h
    · intro h
      simp at h
      exact ⟨iv.1, h⟩
    · intro h
      simp at h
      exact ⟨iv.1, h⟩
  have hfempty : valid_segments segs = [] → extractedFiles o vid segs = [] := by
    intro h1
    unfold extractedFiles pvsSteps
    rw [h1]
    rfl
  refine ⟨?_, ?_, ?_⟩
  · intro i
    unfold process_video_segments
    split_ifs with h1 h2 h3 h4
    · simp
    · exact hcount i
    · rw [List.count_append]
      have : ([EngineCall.concatFirst vid].count (EngineCall.extractSeg vid i)) = 0 := by
        simp [List.count_singleton]
      rw [this]
      simpa using hcount i
    · rw [List.count_append]
      have : (([EngineCall.concatFirst vid,
          EngineCall.concatRetry vid]).count (EngineCall.extractSeg vid i)) = 0 := by
        simp [List.count_cons]
      rw [this]
      simpa using hcount i
    · rw [List.count_append]
      have : (([EngineCall.concatFirst vid,
          EngineCall.concatRetry vid]).count (EngineCall.extractSeg vid i)) = 0 := by
        simp [List.count_cons]
      rw [this]
      simpa using hcount i
  · have hnomem : EngineCall.concatRetry vid ∉ segCallsOf o vid segs := by
      intro hmem
      obtain ⟨i, hi⟩ := hext _ hmem
      cases hi
    unfold process_video_segments
    split_ifs with h1 h2 h3 h4
    · simp [hfempty h1]
    · constructor
      · intro h
        exact absurd h hnomem
      · intro h
        exact absurd h.1 (by simpa using h2)
    · simp only [List.mem_append, List.mem_singleton]
      constructor
      · intro h
        rcases h with h | h
        · exact absurd h hnomem
        · simp at h
      · intro h
        rw [h3] at h
        cases h.2
    · simp only [List.mem_append, List.mem_cons, List.mem_singleton]
      constructor
      · intro _
        exact ⟨h2, by simpa using h3⟩
      · intro _
        simp
    · simp only [List.mem_append, List.mem_cons, List.mem_singleton]
      constructor
      · intro _
        exact ⟨h2, by simpa using h3⟩
      · intro _
        simp
  · unfold process_video_segments
    split_ifs with h1 h2 h3 h4
    · constructor
      · intro h
        exfalso
        have heq : "Failed to process video segments: No valid segments to process"
            = "Failed to process video segments: " ++ concatFailLocal := by
          injection h
        exact absurd heq (by decide)
      · intro h
        exact absurd (hfempty h1) h.1
    · constructor
      · intro h
        exfalso
        have heq : "Failed to process video segments: No valid video segments could be created"
            = "Failed to process video segments: " ++ concatFailLocal := by
          injection h
        exact absurd heq (by decide)
      · intro h
        exact absurd h2 h.1
    · constructor
      · intro h
        cases h
      · intro h
        rw [h3] at h
        cases h.2.1
    · constructor
      · intro h
        cases h
      · intro h
        rw [h4] at h
        cases h.2.2
    · constructor
      · intro _
        exact ⟨h2, by simpa using h3, by simpa using h4⟩
      · intro _
        rfl

/-- Witness for the amended C7 theorem. -/
theorem c7_retry_only_at_concat_witness :
    (EngineCall.concatRetry "A" ∈ (process_video_segments okOracle "A" segA1).calls)
      ↔ (extractedFiles okOracle "A" segA1 ≠ [] ∧ okOracle.concat1Ok "A" = false) :=
  (c7_retry_only_at_concat okOracle "A" segA1).2.1

/-! ## Claim C8 — the per-asset timeout guard -/

/-- Claim C8, counterexample: the claim states that on expiry of the
60-minute guard the in-flight extraction is abandoned and the asset is
recorded as failed with reason timeout.  Under `lateTimerOracle` the timer
expires only after extraction has begun (both checkpoint reads are still
clear, the flag is set by completion time), yet the iteration runs the
extraction to completion and records the asset as a successful clip — the
flag is never consulted once extraction has started, so nothing is
abandoned and no timeout is recorded: the claim is false. -/
theorem c8_counterexample :
    ¬ c8AbandonOnExpiry lateTimerOracle 1 1 "A" segA1
    ∧ isClipResult (assetIteration lateTimerOracle 1 1 "A" segA1).result = true
    ∧ timerExpired lateTimerOracle "A" = true := by
  refine ⟨?_, by decide, by decide⟩
  unfold c8AbandonOnExpiry
  decide

/-- Claim C8 (amended): the guard flag is consulted only at the two
cooperative checkpoints — an asset is recorded as failed with reason
timeout exactly when the flag was set at the first checkpoint, or the file
was resolved and the flag was set at the second checkpoint; an asset that
produced a clip never saw the flag set at either checkpoint (so no timeout
is ever recorded for an asset that succeeded); and the loop still hands
every grouped asset exactly one outcome, so a timed-out asset does not
abort its siblings.  Expiry after extraction has begun does not interrupt
it (see the counterexample). -/
theorem c8_checkpoint_guard (o : Oracle) (n k : Nat) (vid : String)
    (vs : List Segment) (segs : List Segment) :
    (isTimeoutFailure (assetIteration o n k vid vs).result = true
        ↔ (o.timeoutAt1 vid = true
            ∨ (o.fileFound vid = true ∧ o.timeoutAt2 vid = true)))
    ∧ (isClipResult (assetIteration o n k vid vs).result = true
        → (o.timeoutAt1 vid = false ∧ o.timeoutAt2 vid = false))
    ∧ ((jobOutcomes o segs).length = (dedupIds segs).length) := by
  refine ⟨assetIteration_timeout_iff o n k vid vs, ?_, ?_⟩
  · intro hclip
    rw [assetIteration_clip_iff] at hclip
    unfold assetSucceedsOn at hclip
    simp only [Bool.and_eq_true, Bool.not_eq_true'] at hclip
    exact ⟨hclip.1, hclip.2.2.1⟩
  · unfold jobOutcomes
    rw [List.length_map, withIdx_length]

/-- Witness for the amended C8 theorem: a clean run of asset `A` is not a
timeout failure, matching both flag checkpoints being clear. -/
theorem c8_checkpoint_guard_witness :
    isTimeoutFailure (assetIteration okOracle 1 1 "A" segA1).result = true
      ↔ (okOracle.timeoutAt1 "A" = true
          ∨ (okOracle.fileFound "A" = true ∧ okOracle.timeoutAt2 "A" = true)) :=
  (c8_checkpoint_guard okOracle 1 1 "A" segA1 segA1).1

/-! ## Claim C9 — job updates are additive partial patches -/

theorem lookup_append_none (k : String) :
    ∀ (l1 l2 : List (String × FVal)), l1.lookup k = none → l2.lookup k = none
      → (l1 ++ l2).lookup k = none := by
  intro l1
  induction l1 with
  | nil =>
    intro l2 h1 h2
    simpa using h2
  | cons p t ih =>
    intro l2 h1 h2
    rw [List.cons_append]
    cases p with
    | mk pk pv =>
      simp only [List.lookup] at h1 ⊢
      cases hbeq : k == pk
      · simp only [hbeq] at h1 ⊢
        exact ih l2 h1 h2
      · simp only [hbeq] at h1
        cases h1

theorem lookup_keyed_none (k key : String) (h : (k == key) = false) :
    ∀ (l : List (String × FVal)), (∀ p ∈ l, p.1 = key) → l.lookup k = none := by
  intro l
  induction l with
  | nil => intro _; rfl
  | cons p t ih =>
    intro hall
    cases p with
    | mk pk pv =>
      have hpk : pk = key := hall (pk, pv) (List.mem_cons_self _ _)
      simp only [List.lookup]
      rw [hpk, h]
      exact ih (fun q hq => hall q (List.mem_cons_of_mem _ hq))

theorem update_data_as_chunks (status : String) (now : Nat)
    (progress : Option Nat) (message errorArg videoUrl : Option String)
    (suggestions : Option (List String)) :
    update_data status now progress message errorArg videoUrl suggestions
      = [("status", .str status), ("updatedAt", .time now)]
        ++ progressChunk progress ++ strChunk "progressMessage" message
        ++ strChunk "error" errorArg ++ strChunk "finalVideoUrl" videoUrl
        ++ suggChunk suggestions := rfl

theorem progressChunk_keys (progress : Option Nat) :
    ∀ p ∈ progressChunk progress, p.1 = "progress" := by
  cases progress with
  | none => intro p hp; simp [progressChunk] at hp
  | some q =>
    intro p hp
    simp only [progressChunk, List.mem_singleton] at hp
    rw [hp]

theorem strChunk_keys (key : String) (v : Option String) :
    ∀ p ∈ strChunk key v, p.1 = key := by
  cases v with
  | none => intro p hp; simp [strChunk] at hp
  | some m =>
    intro p hp
    by_cases hm : m = ""
    · simp [strChunk, hm] at hp
    · simp only [strChunk, hm, if_false, List.mem_singleton] at hp
      rw [hp]

theorem suggChunk_keys (suggestions : Option (List String)) :
    ∀ p ∈ suggChunk suggestions, p.1 = "suggestions" := by
  cases suggestions with
  | none => intro p hp; simp [suggChunk] at hp
  | some l =>
    intro p hp
    by_cases hl : l = []
    · simp [suggChunk, hl] at hp
    · simp only [suggChunk, hl, if_false, List.mem_singleton] at hp
      rw [hp]

theorem base_lookup_none (k status : String) (now : Nat)
    (h1 : (k == "status") = false) (h2 : (k == "updatedAt") = false) :
    (([("status", FVal.str status), ("updatedAt", FVal.time now)] :
        List (String × FVal)).lookup k) = none := by
  simp only [List.lookup, h1, h2]

theorem update_data_lookup_none (status : String) (now : Nat)
    (progress : Option Nat) (message errorArg videoUrl : Option String)
    (suggestions : Option (List String)) (k : String)
    (h1 : (k == "status") = false) (h2 : (k == "updatedAt") = false)
    (h3 : (k == "progress") = false) (h4 : (k == "progressMessage") = false)
    (h5 : (k == "error") = false) (h6 : (k == "finalVideoUrl") = false)
    (h7 : (k == "suggestions") = false) :
    (update_data status now progress message errorArg videoUrl
      suggestions).lookup k = none := by
  rw [update_data_as_chunks]
  apply lookup_append_none
  apply lookup_append_none
  apply lookup_append_none
  apply lookup_append_none
  apply lookup_append_none
  · exact base_lookup_none k status now h1 h2
  · exact lookup_keyed_none k "progress" h3 _ (progressChunk_keys progress)
  · exact lookup_keyed_none k "progressMessage" h4 _ (strChunk_keys _ message)
  · exact lookup_keyed_none k "error" h5 _ (strChunk_keys _ errorArg)
  · exact lookup_keyed_none k "finalVideoUrl" h6 _ (strChunk_keys _ videoUrl)
  · exact lookup_keyed_none k "suggestions" h7 _ (suggChunk_keys suggestions)

/-- Claim C9: one `update_job_status` call patches exactly the supplied
fields — `status` and a fresh `updatedAt` are always written; every key the
patch can touch lies in `jobUpdateFields`; any key outside that set keeps
its previous value (the update never replaces the whole document); each
optional argument left out leaves its field untouched; and no field present
before the patch is absent after it. -/
theorem c9_update_is_partial_patch (doc : JobDoc) (status : String) (now : Nat)
    (progress : Option Nat) (message errorArg videoUrl : Option String)
    (suggestions : Option (List String)) :
    (applyUpdate doc (update_data status now progress message errorArg
        videoUrl suggestions) "status" = some (.str status))
    ∧ (applyUpdate doc (update_data status now progress message errorArg
        videoUrl suggestions) "updatedAt" = some (.time now))
    ∧ (∀ p ∈ update_data status now progress message errorArg videoUrl
        suggestions, p.1 ∈ jobUpdateFields)
    ∧ (∀ k, k ∉ jobUpdateFields →
        applyUpdate doc (update_data status now progress message errorArg
          videoUrl suggestions) k = doc k)
    ∧ (progress = none →
        applyUpdate doc (update_data status now progress message errorArg
          videoUrl suggestions) "progress" = doc "progress")
    ∧ (message = none →
        applyUpdate doc (update_data status now progress message errorArg
          videoUrl suggestions) "progressMessage" = doc "progressMessage")
    ∧ (errorArg = none →
        applyUpdate doc (update_data status now progress message errorArg
          videoUrl suggestions) "error" = doc "error")
    ∧ (videoUrl = none →
        applyUpdate doc (update_data status now progress message errorArg
          videoUrl suggestions) "finalVideoUrl" = doc "finalVideoUrl")
    ∧ (suggestions = none →
        applyUpdate doc (update_data status now progress message errorArg
          videoUrl suggestions) "suggestions" = doc "suggestions")
    ∧ (∀ k v, doc k = some v → ∃ w,
        applyUpdate doc (update_data status now progress message errorArg
          videoUrl suggestions) k = some w) := by
  refine ⟨rfl, rfl, ?_, ?_, ?_, ?_, ?_, ?_, ?_, ?_⟩
  · intro p hp
    rw [update_data_as_chunks] at hp
    simp only [List.mem_append] at hp
    rcases hp with ((((hp | hp) | hp) | hp) | hp) | hp
    · simp only [List.mem_cons, List.mem_singleton, List.not_mem_nil,
        or_false] at hp
      rcases hp with rfl | rfl <;> simp [jobUpdateFields]
    · rw [progressChunk_keys progress p hp]
      simp [jobUpdateFields]
    · rw [strChunk_keys _ message p hp]
      simp [jobUpdateFields]
    · rw [strChunk_keys _ errorArg p hp]
      simp [jobUpdateFields]
    · rw [strChunk_keys _ videoUrl p hp]
      simp [jobUpdateFields]
    · rw [suggChunk_keys suggestions p hp]
      simp [jobUpdateFields]
  · intro k hk
    simp only [jobUpdateFields, List.mem_cons, List.not_mem_nil, or_false,
      not_or] at hk
    obtain ⟨h1, h2, h3, h4, h5, h6, h7⟩ := hk
    unfold applyUpdate
    rw [update_data_lookup_none status now progress message errorArg videoUrl
      suggestions k (by simpa using h1) (by simpa using h2) (by simpa using h3)
      (by simpa using h4) (by simpa using h5) (by simpa using h6)
      (by simpa using h7)]
  · intro hp
    subst hp
    unfold applyUpdate
    have hnone : (update_data status now none message errorArg videoUrl
        suggestions).lookup "progress" = none := by
      rw [update_data_as_chunks]
      apply lookup_append_none
      apply lookup_append_none
      apply lookup_append_none
      apply lookup_append_none
      apply lookup_append_none
      · exact base_lookup_none "progress" status now rfl rfl
      · rfl
      · exact lookup_keyed_none "progress" "progressMessage" rfl _ (strChunk_keys _ message)
      · exact lookup_keyed_none "progress" "error" rfl _ (strChunk_keys _ errorArg)
      · exact lookup_keyed_none "progress" "finalVideoUrl" rfl _ (strChunk_keys _ videoUrl)
      · exact lookup_keyed_none "progress" "suggestions" rfl _ (suggChunk_keys suggestions)
    rw [hnone]
  · intro hm
    subst hm
    unfold applyUpdate
    have hnone : (update_data status now progress none errorArg videoUrl
        suggestions).lookup "progressMessage" = none := by
      rw [update_data_as_chunks]
      apply lookup_append_none
      apply lookup_append_none
      apply lookup_append_none
      apply lookup_append_none
      apply lookup_append_none
      · exact base_lookup_none "progressMessage" status now rfl rfl
      · exact lookup_keyed_none "progressMessage" "progress" rfl _ (progressChunk_keys progress)
      · rfl
      · exact lookup_keyed_none "progressMessage" "error" rfl _ (strChunk_keys _ errorArg)
      · exact lookup_keyed_none "progressMessage" "finalVideoUrl" rfl _ (strChunk_keys _ videoUrl)
      · exact lookup_keyed_none "progressMessage" "suggestions" rfl _ (suggChunk_keys suggestions)
    rw [hnone]
  · intro he
    subst he
    unfold applyUpdate
    have hnone : (update_data status now progress message none videoUrl
        suggestions).lookup "error" = none := by
      rw [update_data_as_chunks]
      apply lookup_append_none
      apply lookup_append_none
      apply lookup_append_none
      apply lookup_append_none
      apply lookup_append_none
      · exact base_lookup_none "error" status now rfl rfl
      · exact lookup_keyed_none "error" "progress" rfl _ (progressChunk_keys progress)
      · exact lookup_keyed_none "error" "progressMessage" rfl _ (strChunk_keys _ message)
      · rfl
      · exact lookup_keyed_none "error" "finalVideoUrl" rfl _ (strChunk_keys _ videoUrl)
      · exact lookup_keyed_none "error" "suggestions" rfl _ (suggChunk_keys suggestions)
    rw [hnone]
  · intro hu
    subst hu
    unfold applyUpdate
    have hnone : (update_data status now progress message errorArg none
        suggestions).lookup "finalVideoUrl" = none := by
      rw [update_data_as_chunks]
      apply lookup_append_none
      apply lookup_append_none
      apply lookup_append_none
      apply lookup_append_none
      apply lookup_append_none
      · exact base_lookup_none "finalVideoUrl" status now rfl rfl
      · exact lookup_keyed_none "finalVideoUrl" "progress" rfl _ (progressChunk_keys progress)
      · exact lookup_keyed_none "finalVideoUrl" "progressMessage" rfl _ (strChunk_keys _ message)
      · exact lookup_keyed_none "finalVideoUrl" "error" rfl _ (strChunk_keys _ errorArg)
      · rfl
      · exact lookup_keyed_none "finalVideoUrl" "suggestions" rfl _ (suggChunk_keys suggestions)
    rw [hnone]
  · intro hs
    subst hs
    unfold applyUpdate
    have hnone : (update_data status now progress message errorArg videoUrl
        none).lookup "suggestions" = none := by
      rw [update_data_as_chunks]
      apply lookup_append_none
      apply lookup_append_none
      apply lookup_append_none
      apply lookup_append_none
      apply lookup_append_none
      · exact base_lookup_none "suggestions" status now rfl rfl
      · exact lookup_keyed_none "suggestions" "progress" rfl _ (progressChunk_keys progress)
      · exact lookup_keyed_none "suggestions" "progressMessage" rfl _ (strChunk_keys _ message)
      · exact lookup_keyed_none "suggestions" "error" rfl _ (strChunk_keys _ errorArg)
      · exact lookup_keyed_none "suggestions" "finalVideoUrl" rfl _ (strChunk_keys _ videoUrl)
      · rfl
    rw [hnone]
  · intro k v hv
    unfold applyUpdate
    cases hl : (update_data status now progress message errorArg videoUrl
        suggestions).lookup k with
    | none =>
      refine ⟨v, ?_⟩
      exact hv
    | some w =>
      exact ⟨w, rfl⟩

/-- Witness for C9: patching a queued document with a progress update
leaves the untouched `error` field in place. -/
theorem c9_update_is_partial_patch_witness :
    applyUpdate sampleDoc (update_data "Processing" 7 (some 60)
      (some "working") none none none) "error" = sampleDoc "error" :=
  (c9_update_is_partial_patch sampleDoc "Processing" 7 (some 60)
    (some "working") none none none).2.2.2.2.2.2.1 rfl

/-! ## Claim C10 — synchronous accept validates ids only -/

theorem collect_ok_iff : ∀ (l : List Segment) (acc : List String),
    isErr (collectIds l acc) = false ↔ ∀ s ∈ l, falsyId s.videoId = false := by
  intro l
  induction l with
  | nil =>
    intro acc
    simp [collectIds, isErr]
  | cons s t ih =>
    intro acc
    by_cases hf : falsyId s.videoId = true
    · rw [collectIds]
      rw [if_pos hf]
      simp only [isErr]
      constructor
      · intro h
        cases h
      · intro h
        have := h s (List.mem_cons_self _ _)
        rw [hf] at this
        cases this
    · have hf' : falsyId s.videoId = false := by
        revert hf
        cases falsyId s.videoId <;> simp
      cases hv : s.videoId with
      | none =>
        rw [hv] at hf'
        simp [falsyId] at hf'
      | some v =>
        rw [collectIds, if_neg hf, hv]
        rw [ih]
        constructor
        · intro h u hu
          rcases List.mem_cons.mp hu with rfl | hu
          · exact hf'
          · exact h u hu
        · intro h u hu
          exact h u (List.mem_cons_of_mem _ hu)

theorem collect_ok_ne_nil : ∀ (l : List Segment) (acc : List String)
    (ids : List String), acc ≠ [] → collectIds l acc = .ok ids → ids ≠ [] := by
  intro l
  induction l with
  | nil =>
    intro acc ids hacc hok
    cases hok
    exact hacc
  | cons s t ih =>
    intro acc ids hacc hok
    rw [collectIds] at hok
    by_cases hf : falsyId s.videoId = true
    · rw [if_pos hf] at hok
      cases hok
    · rw [if_neg hf] at hok
      cases hv : s.videoId with
      | none =>
        simp only [hv] at hok
        cases hok
      | some v =>
        simp only [hv] at hok
        by_cases hmem : v ∈ acc
        · rw [if_pos hmem] at hok
          exact ih acc ids hacc hok
        · rw [if_neg hmem] at hok
          refine ih (acc ++ [v]) ids ?_ hok
          intro habs
          have : v ∈ acc ++ [v] := by simp
          rw [habs] at this
          cases this

/-- Claim C10: the synchronous accept path rejects a segment only for a
missing (falsy) `videoId` — acceptance holds exactly when the request is
non-empty and every segment has a truthy id, with the time fields never
inspected; a segment with missing time fields is accepted at submission
(the missing keys default to 0 making `end ≤ start`) and is then dropped by
the asynchronous first validation pass (`conv1` returns `none`), as is a
segment with a non-numeric time field. -/
theorem c10_accept_only_checks_ids (segs : List Segment) :
    (isErr (processVideoJobAccept segs) = false
        ↔ (segs ≠ [] ∧ ∀ s ∈ segs, falsyId s.videoId = false))
    ∧ conv1 ⟨some "v", .missing, .missing⟩ = none
    ∧ conv1 ⟨some "v", .num 5, .nonNumeric⟩ = none
    ∧ getTime JVal.missing = some 0 := by
  refine ⟨?_, rfl, rfl, rfl⟩
  by_cases hnil : segs = []
  · subst hnil
    simp [processVideoJobAccept, isErr]
  · unfold processVideoJobAccept
    rw [if_neg hnil]
    cases hcl : collectIds segs [] with
    | error e =>
      simp only [isErr]
      constructor
      · intro h
        cases h
      · intro h
        have := (collect_ok_iff segs []).mpr h.2
        rw [hcl] at this
        cases this
    | ok ids =>
      have hids : ids ≠ [] := by
        cases segs with
        | nil => exact absurd rfl hnil
        | cons s t =>
          rw [collectIds] at hcl
          by_cases hf : falsyId s.videoId = true
          · rw [if_pos hf] at hcl
            cases hcl
          · rw [if_neg hf] at hcl
            cases hv : s.videoId with
            | none =>
              simp only [hv] at hcl
              cases hcl
            | some v =>
              simp only [hv] at hcl
              have hmem : ¬ v ∈ ([] : List String) := by simp
              rw [if_neg hmem] at hcl
              exact collect_ok_ne_nil t ([] ++ [v]) ids (by simp) hcl
      simp only [isErr, if_neg hids]
      constructor
      · intro _
        refine ⟨hnil, ?_⟩
        have := (collect_ok_iff segs []).mp
        rw [hcl] at this
        exact this rfl
      · intro _
        trivial

/-- Witness for C10: a segment with both time fields missing is accepted at
submission and dropped by the asynchronous validation. -/
theorem c10_accept_only_checks_ids_witness :
    conv1 ⟨some "v", .missing, .missing⟩ = none :=
  (c10_accept_only_checks_ids segA1).2.1
